import Mathlib

/-!
# ZaiGo-System: inventory ledger contract and authentication layer

Two parts of the repository are embedded here.

* `Inventory`: the ledger behind `inventory.NewManager` (`cmd/api/main.go`).  The package
  `pkg/inventory` is not among the sources; only its configuration (`main.go`), its interface
  (the mock in `handlers_test.go`) and its written contract are available, so the ledger
  operations are modelled from the contract.
* `Auth`: `pkg/auth` (`user.go`, `jwt.go`, `middleware.go`, `handler.go`,
  `admin_handler.go`), translated from the Go sources.
* `Api`: the router of `cmd/api/main.go`, translated from the Go source.
-/

namespace Inventory

/-- Ledger configuration: `inventory.Config` as built in `main` (`cmd/api/main.go`, lines 52-58).
Only the negative-stock switch and the audit switch, which the ledger contract names, are
kept. -/
structure Config where
  AllowNegativeStock : Bool
  AuditEnabled : Bool
  deriving DecidableEq, Repr

/-- Modelled from the spec: the error kinds of `pkg/inventory` (absent from the sources), section 7. -/
inductive LedgerError where
  | InvalidQuantity
  | InsufficientStock
  | StockNotFound
  | BatchNotFound
  deriving DecidableEq, Repr

/-- A stock key is the pair (itemID, locationID). -/
abbrev Key := String × String

/-- Modelled from the spec: `inventory.Stock` (declared in `pkg/inventory`, absent from the sources), the
record of one key: physical quantity and reserved quantity. -/
structure Stock where
  Quantity : Int
  ReservedQuantity : Int
  deriving DecidableEq, Repr

/-- Available quantity: quantity minus reserved quantity. -/
def Stock.available (st : Stock) : Int := st.Quantity - st.ReservedQuantity

/-- Operation kind recorded in a transaction. -/
inductive OpKind where
  | Add | Remove | Transfer | Adjust | Reserve | Release
  deriving DecidableEq, Repr

/-- Modelled from the spec: `inventory.Transaction` (declared in `pkg/inventory`, absent from the
sources), the immutable transaction record.  `Correlation` is the shared id of the two legs of
a transfer. -/
structure Transaction where
  ID : Nat
  ItemID : String
  LocationID : String
  Kind : OpKind
  Delta : Int
  Balance : Int
  Reference : String
  Timestamp : Nat
  Correlation : Option Nat
  deriving DecidableEq, Repr

/-- Modelled from the spec: `inventory.InventoryOperation` (declared in `pkg/inventory`, absent from
the sources), the payload of one batch operation: the closed variant Add / Remove / Transfer /
Adjust. -/
inductive InventoryOperation where
  | Add (itemID locationID : String) (quantity : Int) (reference : String)
  | Remove (itemID locationID : String) (quantity : Int) (reference : String)
  | Transfer (itemID fromLocationID toLocationID : String) (quantity : Int) (reference : String)
  | Adjust (itemID locationID : String) (newQuantity : Int) (reference : String)
  deriving DecidableEq, Repr

/-- Modelled from the spec: the status of a batch (`pkg/inventory`, absent from the sources). -/
inductive BatchStatus where
  | Pending | Committed | Failed
  deriving DecidableEq, Repr

/-- Modelled from the spec: `inventory.BatchOperation` (declared in `pkg/inventory`, absent from the
sources): id, requested operations, status, failure detail (index and cause), times. -/
structure BatchOperation where
  ID : Nat
  Operations : List InventoryOperation
  Status : BatchStatus
  Failure : Option (Nat × LedgerError)
  CreatedAt : Nat
  CompletedAt : Option Nat
  deriving DecidableEq, Repr

/-- Modelled from the spec: the state held by the manager of `pkg/inventory` (absent from the
sources): the stock map, the append-only transaction log, the batch records and the id
counter. -/
structure Ledger where
  stocks : Key → Option Stock
  log : List Transaction
  batches : List BatchOperation
  nextID : Nat

/-- The empty ledger. -/
def Ledger.empty : Ledger :=
  { stocks := fun _ => none, log := [], batches := [], nextID := 0 }

/-- Record held for a key; a key never mutated so far holds nothing, i.e. quantity 0 and
reserved 0. -/
def Ledger.current (s : Ledger) (k : Key) : Stock :=
  (s.stocks k).getD { Quantity := 0, ReservedQuantity := 0 }

/-- Modelled from the spec: `Manager.GetStock` of `pkg/inventory` (absent from the sources).
Returns the record of the key, `StockNotFound` when there is none. -/
def GetStock (s : Ledger) (itemID locationID : String) : Except LedgerError Stock :=
  match s.stocks (itemID, locationID) with
  | some st => .ok st
  | none => .error .StockNotFound

/-- Point update of the stock map. -/
def setStock (f : Key → Option Stock) (k : Key) (st : Stock) : Key → Option Stock :=
  fun k' => if k' = k then some st else f k'

/-- Modelled from the spec: the write path shared by every accepted mutation of the ledger of
`pkg/inventory` (absent from the sources).  The record of the key is replaced and exactly one
transaction is appended; with audit configured off the append is a no-op while the quantity
update still applies. -/
def commit (cfg : Config) (now : Nat) (s : Ledger) (k : Key) (kind : OpKind) (delta : Int)
    (st : Stock) (balance : Int) (reference : String) (corr : Option Nat) : Ledger :=
  { stocks := setStock s.stocks k st
    log := if cfg.AuditEnabled then
        s.log ++ [{ ID := s.nextID, ItemID := k.1, LocationID := k.2, Kind := kind, Delta := delta,
                    Balance := balance, Reference := reference, Timestamp := now,
                    Correlation := corr }]
      else s.log
    batches := s.batches
    nextID := s.nextID + 1 }

/-- Modelled from the spec: the receipt leg, used by Add and by the second leg of Transfer.
`quantity += qty`; `InvalidQuantity` when `qty ≤ 0`; never fails on the quantity check. -/
def addLeg (cfg : Config) (now : Nat) (s : Ledger) (k : Key) (qty : Int) (reference : String)
    (kind : OpKind) (corr : Option Nat) : Except LedgerError Ledger :=
  if qty ≤ 0 then .error .InvalidQuantity
  else
    let st := s.current k
    let st' : Stock := { st with Quantity := st.Quantity + qty }
    .ok (commit cfg now s k kind qty st' st'.Quantity reference corr)

/-- Modelled from the spec: the issue leg, used by Remove and by the first leg of Transfer.
`InvalidQuantity` when `qty ≤ 0`; `InsufficientStock` when `available < qty`; otherwise
`quantity -= qty`.  Section 4.1 words the check for the ledger with negative stock disallowed;
invariant 3 of section 3 and section 4.2 keep it whatever the negative-stock override is:
Remove must not drive `available` below 0 and only consumes from the unreserved pool. -/
def removeLeg (cfg : Config) (now : Nat) (s : Ledger) (k : Key) (qty : Int) (reference : String)
    (kind : OpKind) (corr : Option Nat) : Except LedgerError Ledger :=
  if qty ≤ 0 then .error .InvalidQuantity
  else
    let st := s.current k
    if st.available < qty then .error .InsufficientStock
    else
      let st' : Stock := { st with Quantity := st.Quantity - qty }
      .ok (commit cfg now s k kind (-qty) st' st'.Quantity reference corr)

/-- Modelled from the spec: Adjust sets the quantity directly and records
`delta = newQuantity - oldQuantity`; `InvalidQuantity` when `newQuantity < 0` or when it would
leave `reservedQuantity > newQuantity`. -/
def adjustTx (cfg : Config) (now : Nat) (s : Ledger) (k : Key) (newQuantity : Int)
    (reference : String) : Except LedgerError Ledger :=
  let st := s.current k
  if newQuantity < 0 then .error .InvalidQuantity
  else if st.ReservedQuantity > newQuantity then .error .InvalidQuantity
  else
    let st' : Stock := { st with Quantity := newQuantity }
    .ok (commit cfg now s k .Adjust (newQuantity - st.Quantity) st' newQuantity reference none)

/-- Modelled from the spec: Transfer is Remove(from, qty) followed by Add(to, qty) on a
transactional view; when either leg fails neither is applied.  The two transactions share a
correlation id. -/
def transferTx (cfg : Config) (now : Nat) (s : Ledger) (itemID fromLoc toLoc : String) (qty : Int)
    (reference : String) : Except LedgerError Ledger :=
  let corr := some s.nextID
  match removeLeg cfg now s (itemID, fromLoc) qty reference .Transfer corr with
  | .error e => .error e
  | .ok s1 => addLeg cfg now s1 (itemID, toLoc) qty reference .Transfer corr

/-- Modelled from the spec: Reserve mutates `reservedQuantity` only; `InvalidQuantity` when
`qty ≤ 0`, `InsufficientStock` when `available < qty`. -/
def reserveTx (cfg : Config) (now : Nat) (s : Ledger) (k : Key) (qty : Int)
    (reference : String) : Except LedgerError Ledger :=
  if qty ≤ 0 then .error .InvalidQuantity
  else
    let st := s.current k
    if st.available < qty then .error .InsufficientStock
    else
      let st' : Stock := { st with ReservedQuantity := st.ReservedQuantity + qty }
      .ok (commit cfg now s k .Reserve qty st' st'.Quantity reference none)

/-- Modelled from the spec: ReleaseReservation mutates `reservedQuantity` only;
`InvalidQuantity` when `qty ≤ 0` or when it would drive `reservedQuantity` below 0. -/
def releaseTx (cfg : Config) (now : Nat) (s : Ledger) (k : Key) (qty : Int)
    (reference : String) : Except LedgerError Ledger :=
  if qty ≤ 0 then .error .InvalidQuantity
  else
    let st := s.current k
    if st.ReservedQuantity < qty then .error .InvalidQuantity
    else
      let st' : Stock := { st with ReservedQuantity := st.ReservedQuantity - qty }
      .ok (commit cfg now s k .Release (-qty) st' st'.Quantity reference none)

/-- Modelled from the spec: the outcome of a call of the manager of `pkg/inventory` (absent from
the sources): the state after the call and the error returned to the caller.  Errors are
detected before any mutation, so a rejected call leaves the state it was given. -/
def settle (s : Ledger) (r : Except LedgerError Ledger) : Ledger × Option LedgerError :=
  match r with
  | .ok s' => (s', none)
  | .error e => (s, some e)

/-- Modelled from the spec: `Manager.Add` of `pkg/inventory` (absent from the sources; interface
in `handlers_test.go`, lines 25-28). -/
def Add (cfg : Config) (now : Nat) (s : Ledger) (itemID locationID : String) (quantity : Int)
    (reference : String) : Ledger × Option LedgerError :=
  settle s (addLeg cfg now s (itemID, locationID) quantity reference .Add none)

/-- Modelled from the spec: `Manager.Remove` of `pkg/inventory` (absent from the sources;
interface in `handlers_test.go`, lines 30-33). -/
def Remove (cfg : Config) (now : Nat) (s : Ledger) (itemID locationID : String) (quantity : Int)
    (reference : String) : Ledger × Option LedgerError :=
  settle s (removeLeg cfg now s (itemID, locationID) quantity reference .Remove none)

/-- Modelled from the spec: `Manager.Adjust` of `pkg/inventory` (absent from the sources). -/
def Adjust (cfg : Config) (now : Nat) (s : Ledger) (itemID locationID : String)
    (newQuantity : Int) (reference : String) : Ledger × Option LedgerError :=
  settle s (adjustTx cfg now s (itemID, locationID) newQuantity reference)

/-- Modelled from the spec: `Manager.Transfer` of `pkg/inventory` (absent from the sources). -/
def Transfer (cfg : Config) (now : Nat) (s : Ledger) (itemID fromLocationID toLocationID : String)
    (quantity : Int) (reference : String) : Ledger × Option LedgerError :=
  settle s (transferTx cfg now s itemID fromLocationID toLocationID quantity reference)

/-- Modelled from the spec: `Manager.Reserve` of `pkg/inventory` (absent from the sources;
interface in `handlers_test.go`, lines 106-109). -/
def Reserve (cfg : Config) (now : Nat) (s : Ledger) (itemID locationID : String) (quantity : Int)
    (reference : String) : Ledger × Option LedgerError :=
  settle s (reserveTx cfg now s (itemID, locationID) quantity reference)

/-- Modelled from the spec: `Manager.ReleaseReservation` of `pkg/inventory` (absent from the
sources; interface in `handlers_test.go`, lines 111-114). -/
def ReleaseReservation (cfg : Config) (now : Nat) (s : Ledger) (itemID locationID : String)
    (quantity : Int) (reference : String) : Ledger × Option LedgerError :=
  settle s (releaseTx cfg now s (itemID, locationID) quantity reference)

/-- Modelled from the spec: one batch operation of `Manager.ExecuteBatch` (absent from the sources)
applied to the transactional view. -/
def applyOp (cfg : Config) (now : Nat) (s : Ledger) : InventoryOperation → Except LedgerError Ledger
  | .Add i l q r => addLeg cfg now s (i, l) q r .Add none
  | .Remove i l q r => removeLeg cfg now s (i, l) q r .Remove none
  | .Transfer i f t q r => transferTx cfg now s i f t q r
  | .Adjust i l q r => adjustTx cfg now s (i, l) q r

/-- Modelled from the spec: the loop of `Manager.ExecuteBatch` (absent from the sources).  The
operations of a batch are applied strictly in list order to the transactional view, starting
at index `idx`; the loop stops at the first operation that fails, with its index and cause. -/
def runOps (cfg : Config) (now : Nat) :
    Ledger → Nat → List InventoryOperation → Except (Nat × LedgerError) Ledger
  | s, _, [] => .ok s
  | s, idx, op :: rest =>
    match applyOp cfg now s op with
    | .error e => .error (idx, e)
    | .ok s' => runOps cfg now s' (idx + 1) rest

/-- Modelled from the spec: the transactional view on which `Manager.ExecuteBatch` (absent from the
sources) runs a batch: the ledger after the batch id is allocated. -/
def batchView (s : Ledger) : Ledger := { s with nextID := s.nextID + 1 }

/-- Modelled from the spec: `Manager.ExecuteBatch` of `pkg/inventory` (absent from the sources;
interface in `handlers_test.go`, lines 90-96).  A batch id is allocated, the operations run on
a transactional view; on the first failing operation the view is discarded and the batch is
recorded as Failed with the failing index and cause, otherwise the view is committed and the
batch is recorded as Committed. -/
def ExecuteBatch (cfg : Config) (now : Nat) (s : Ledger) (operations : List InventoryOperation) :
    Ledger × BatchOperation :=
  let view : Ledger := batchView s
  match runOps cfg now view 0 operations with
  | .ok s' =>
    let b : BatchOperation :=
      { ID := s.nextID, Operations := operations, Status := .Committed, Failure := none,
        CreatedAt := now, CompletedAt := some now }
    ({ s' with batches := s'.batches ++ [b] }, b)
  | .error (i, e) =>
    let b : BatchOperation :=
      { ID := s.nextID, Operations := operations, Status := .Failed, Failure := some (i, e),
        CreatedAt := now, CompletedAt := some now }
    ({ view with batches := view.batches ++ [b] }, b)

/-- A call of the ledger interface, with the time at which it is made. -/
inductive Call where
  | Add (now : Nat) (itemID locationID : String) (quantity : Int) (reference : String)
  | Remove (now : Nat) (itemID locationID : String) (quantity : Int) (reference : String)
  | Adjust (now : Nat) (itemID locationID : String) (newQuantity : Int) (reference : String)
  | Transfer (now : Nat) (itemID fromLocationID toLocationID : String) (quantity : Int)
      (reference : String)
  | Reserve (now : Nat) (itemID locationID : String) (quantity : Int) (reference : String)
  | ReleaseReservation (now : Nat) (itemID locationID : String) (quantity : Int)
      (reference : String)
  | ExecuteBatch (now : Nat) (operations : List InventoryOperation)

/-- State after one call. -/
def step (cfg : Config) (s : Ledger) : Call → Ledger
  | .Add now i l q r => (Add cfg now s i l q r).1
  | .Remove now i l q r => (Remove cfg now s i l q r).1
  | .Adjust now i l q r => (Adjust cfg now s i l q r).1
  | .Transfer now i f t q r => (Transfer cfg now s i f t q r).1
  | .Reserve now i l q r => (Reserve cfg now s i l q r).1
  | .ReleaseReservation now i l q r => (ReleaseReservation cfg now s i l q r).1
  | .ExecuteBatch now ops => (ExecuteBatch cfg now s ops).1

/-- State reached from the empty ledger by a sequence of calls. -/
def run (cfg : Config) (calls : List Call) : Ledger :=
  calls.foldl (step cfg) Ledger.empty

/-- Reservation bound on every key of a ledger state: `0 ≤ reservedQuantity ≤ quantity`. -/
def ReservationBound (s : Ledger) : Prop :=
  ∀ k : Key, 0 ≤ (s.current k).ReservedQuantity ∧
    (s.current k).ReservedQuantity ≤ (s.current k).Quantity

end Inventory

namespace Auth

/-! ## `pkg/auth/user.go` -/

/-- Role of a user: `type Role string`. -/
abbrev Role := String

/-- Permission: `type Permission string`. -/
abbrev Permission := String

def RoleSystemAdmin : Role := "SYSTEM_ADMIN"
def RoleInventoryManager : Role := "INVENTORY_MANAGER"
def RoleFieldOperator : Role := "FIELD_OPERATOR"
def RoleAnalyst : Role := "ANALYST"
def RoleViewer : Role := "VIEWER"

def PermissionInventoryRead : Permission := "inventory:read"
def PermissionInventoryWrite : Permission := "inventory:write"
def PermissionMasterRead : Permission := "master:read"
def PermissionMasterWrite : Permission := "master:write"
def PermissionStocktakingRead : Permission := "stocktaking:read"
def PermissionStocktakingWrite : Permission := "stocktaking:write"
def PermissionReportRead : Permission := "report:read"
def PermissionAuditRead : Permission := "audit:read"
def PermissionUserManage : Permission := "user:manage"

/-- The nine permission constants declared in `user.go` (lines 39-49). -/
def AllPermissions : List Permission :=
  [PermissionInventoryRead, PermissionInventoryWrite, PermissionMasterRead,
   PermissionMasterWrite, PermissionStocktakingRead, PermissionStocktakingWrite,
   PermissionReportRead, PermissionAuditRead, PermissionUserManage]

/-- The five role constants declared in `user.go` (lines 28-34). -/
def AllRoles : List Role :=
  [RoleSystemAdmin, RoleInventoryManager, RoleFieldOperator, RoleAnalyst, RoleViewer]

/-- User record (`user.go`, lines 12-23).  Times are nanoseconds since the epoch. -/
structure User where
  ID : String := ""
  Email : String := ""
  Name : String := ""
  PasswordHash : String := ""
  Role : Role := ""
  LocationID : Option String := none
  IsActive : Bool := false
  CreatedAt : Int := 0
  UpdatedAt : Int := 0
  deriving DecidableEq, Repr

/-- Map `RolePermissions` (`user.go`, lines 51-78): the lookup `RolePermissions[role]`, `none`
when the role is not a key of the map. -/
def RolePermissions (role : Role) : Option (List Permission) :=
  if role = RoleSystemAdmin then
    some [PermissionInventoryRead, PermissionInventoryWrite,
          PermissionMasterRead, PermissionMasterWrite,
          PermissionStocktakingRead, PermissionStocktakingWrite,
          PermissionReportRead, PermissionAuditRead, PermissionUserManage]
  else if role = RoleInventoryManager then
    some [PermissionInventoryRead, PermissionInventoryWrite,
          PermissionMasterRead, PermissionMasterWrite,
          PermissionStocktakingRead, PermissionStocktakingWrite,
          PermissionReportRead]
  else if role = RoleFieldOperator then
    some [PermissionInventoryRead, PermissionInventoryWrite,
          PermissionStocktakingRead, PermissionStocktakingWrite]
  else if role = RoleAnalyst then
    some [PermissionInventoryRead,
          PermissionMasterRead,
          PermissionReportRead, PermissionAuditRead]
  else if role = RoleViewer then
    some [PermissionInventoryRead,
          PermissionMasterRead]
  else none

/-- The loop of `HasPermission`: `for _, p := range perms { if p == perm { return true } }`
followed by `return false`. -/
def rangePerms : List Permission → Permission → Bool
  | [], _ => false
  | p :: rest, perm => if p = perm then true else rangePerms rest perm

/-- Method `(u *User) HasPermission(perm)` (`user.go`, lines 80-92). -/
def User.HasPermission (u : User) (perm : Permission) : Bool :=
  match RolePermissions u.Role with
  | none => false
  | some perms => rangePerms perms perm

/-! ## `pkg/auth/jwt.go` -/

/-- JWT configuration (`jwt.go`, lines 10-16).  Durations are nanoseconds. -/
structure Config where
  SecretKey : String
  Issuer : String
  TokenExpiry : Int
  RefreshExpiry : Int
  deriving DecidableEq, Repr

/-- One second, one minute and one hour as `time.Duration` values. -/
def Second : Int := 1000000000
def Minute : Int := 60 * Second
def Hour : Int := 60 * Minute

/-- Function `DefaultConfig` (`jwt.go`, lines 18-26). -/
def DefaultConfig : Config :=
  { SecretKey := "your-secret-key-change-in-production"
    Issuer := "zaigo-system"
    TokenExpiry := 15 * Minute
    RefreshExpiry := 7 * 24 * Hour }

/-- The fields of `jwt.RegisteredClaims` that the service sets; a numeric date is held as the
time it was built from. -/
structure RegisteredClaims where
  Issuer : String := ""
  Subject : String := ""
  ExpiresAt : Option Int := none
  IssuedAt : Option Int := none
  deriving DecidableEq, Repr

/-- Claims of an access token (`jwt.go`, lines 28-36). -/
structure Claims where
  UserID : String := ""
  Email : String := ""
  Name : String := ""
  Role : Role := ""
  LocationID : String := ""
  Registered : RegisteredClaims := {}
  deriving DecidableEq, Repr

/-- Token pair (`jwt.go`, lines 38-43). -/
structure TokenPair where
  AccessToken : String
  RefreshToken : String
  ExpiresAt : Int
  deriving DecidableEq, Repr

/-- Service (`jwt.go`, lines 45-48). -/
structure JWTService where
  config : Config
  deriving DecidableEq, Repr

/-- Function `NewJWTService` (`jwt.go`, lines 50-56): a nil config is replaced by the default. -/
def NewJWTService (config : Option Config) : JWTService :=
  match config with
  | none => { config := DefaultConfig }
  | some c => { config := c }

/-- Signing method of a parsed token, as seen by the key function: HMAC family or not. -/
inductive SigningMethod where
  | HMAC
  | Other
  deriving DecidableEq, Repr

/-- Parsed token returned by the JWT library: the claims when they have the requested type,
and the `Valid` flag. -/
structure Token where
  Claims : Option Claims
  Valid : Bool
  deriving DecidableEq, Repr

/-- The third-party functions the package calls (`github.com/golang-jwt/jwt/v5`,
`golang.org/x/crypto/bcrypt`, `encoding/json`).  They are not part of the repository and are
taken as parameters.
* `SignedString claims key`: `jwt.NewWithClaims(jwt.SigningMethodHS256, claims).SignedString(key)`
  for access claims; `SignedRegistered` the same for bare registered claims.
* `ParseWithClaims tokenString keyFunc`: `jwt.ParseWithClaims(tokenString, &Claims{}, keyFunc)`.
* `CompareHashAndPassword hash password`: true when `bcrypt.CompareHashAndPassword` returns nil.
* `DecodeLogin body`: `json.NewDecoder(body).Decode(&req)` for a `LoginRequest`; the decoded
  pair (email, password), `none` on a decoding error. -/
structure External where
  SignedString : Claims → String → Except String String
  SignedRegistered : RegisteredClaims → String → Except String String
  ParseWithClaims : String → (SigningMethod → Except String String) → Except String Token
  CompareHashAndPassword : String → String → Bool
  DecodeLogin : String → Option (String × String)

/-- Method `time.Time.Unix`: whole seconds since the epoch. -/
def Unix (t : Int) : Int := t / Second

/-- Method `(s *JWTService) GenerateTokens(user)` (`jwt.go`, lines 58-109); `now` is the value
of `time.Now()`. -/
def JWTService.GenerateTokens (ext : External) (s : JWTService) (now : Int) (user : User) :
    Except String TokenPair :=
  let accessExpiry := now + s.config.TokenExpiry
  let refreshExpiry := now + s.config.RefreshExpiry
  let locationID :=
    match user.LocationID with
    | some l => l
    | none => ""
  let accessClaims : Claims :=
    { UserID := user.ID
      Email := user.Email
      Name := user.Name
      Role := user.Role
      LocationID := locationID
      Registered :=
        { Issuer := s.config.Issuer
          Subject := user.ID
          ExpiresAt := some accessExpiry
          IssuedAt := some now } }
  match ext.SignedString accessClaims s.config.SecretKey with
  | .error err => .error err
  | .ok accessTokenString =>
    let refreshClaims : RegisteredClaims :=
      { Issuer := s.config.Issuer
        Subject := user.ID
        ExpiresAt := some refreshExpiry
        IssuedAt := some now }
    match ext.SignedRegistered refreshClaims s.config.SecretKey with
    | .error err => .error err
    | .ok refreshTokenString =>
      .ok { AccessToken := accessTokenString
            RefreshToken := refreshTokenString
            ExpiresAt := Unix accessExpiry }

/-- Method `(s *JWTService) ValidateToken(tokenString)` (`jwt.go`, lines 111-130). -/
def JWTService.ValidateToken (ext : External) (s : JWTService) (tokenString : String) :
    Except String Claims :=
  match ext.ParseWithClaims tokenString (fun method =>
      match method with
      | .HMAC => .ok s.config.SecretKey
      | .Other => .error "invalid signing method") with
  | .error err => .error err
  | .ok token =>
    match token.Claims with
    | none => .error "invalid token"
    | some claims => if !token.Valid then .error "invalid token" else .ok claims

/-! ## `pkg/auth/middleware.go` -/

/-- Key type of request-context values: `type contextKey string`. -/
abbrev contextKey := String

def UserContextKey : contextKey := "user"
def ClaimsContextKey : contextKey := "claims"

/-- Value stored in a request context under a key of this package: a `*Claims` pointer
(possibly nil) or a value of another dynamic type. -/
inductive ContextValue where
  | ClaimsPtr (claims : Option Claims)
  | Other (value : String)
  deriving DecidableEq, Repr

/-- Request context: the chain of `context.WithValue` bindings, innermost first. -/
abbrev Context := List (contextKey × ContextValue)

/-- Function `context.WithValue`. -/
def WithValue (ctx : Context) (key : contextKey) (value : ContextValue) : Context :=
  (key, value) :: ctx

/-- Method `ctx.Value(key)`: the innermost binding of the key. -/
def Context.Value : Context → contextKey → Option ContextValue
  | [], _ => none
  | (k, v) :: rest, key => if k = key then some v else Context.Value rest key

/-- Cookie sent with a request. -/
structure Cookie where
  Name : String
  Value : String
  deriving DecidableEq, Repr

/-- The parts of `http.Request` the package reads.  `Authorization` is
`r.Header.Get("Authorization")`, empty when the header is absent; `Vars` are the route
variables bound by the router. -/
structure Request where
  Method : String := "GET"
  Path : String := "/"
  Authorization : String := ""
  Cookies : List Cookie := []
  Body : String := ""
  Ctx : Context := []
  Vars : List (String × String) := []
  deriving DecidableEq, Repr

/-- Method `r.Cookie(name)`: the first cookie of that name, `none` for `http.ErrNoCookie`. -/
def Request.Cookie (r : Request) (name : String) : Option Cookie :=
  r.Cookies.find? (fun c => c.Name = name)

/-- Method `r.WithContext(ctx)`. -/
def Request.WithContext (r : Request) (ctx : Context) : Request :=
  { r with Ctx := ctx }

/-- Splitting at every occurrence of a separator character; the pieces of `strings.Split`
for a one-character separator. -/
def splitChars (sep : Char) : List Char → List (List Char)
  | [] => [[]]
  | c :: cs =>
    if c = sep then [] :: splitChars sep cs
    else
      match splitChars sep cs with
      | [] => [[c]]
      | p :: ps => (c :: p) :: ps

/-- Function `strings.Split(s, sep)` for a one-character separator. -/
def Split (s : String) (sep : Char) : List String :=
  (splitChars sep s.data).map String.mk

/-- What a middleware does with a request: it writes an error response with `http.Error`, or
it calls `next.ServeHTTP` with a request. -/
inductive Decision where
  | Respond (status : Nat) (message : String)
  | Next (r : Request)
  deriving DecidableEq, Repr

def StatusOK : Nat := 200
def StatusBadRequest : Nat := 400
def StatusUnauthorized : Nat := 401
def StatusForbidden : Nat := 403
def StatusInternalServerError : Nat := 500

/-- Middleware (`middleware.go`, lines 21-25). -/
structure Middleware where
  jwtService : JWTService
  deriving DecidableEq, Repr

/-- Function `GetClaimsFromContext` (`middleware.go`, lines 100-107). -/
def GetClaimsFromContext (ctx : Context) : Option Claims :=
  match ctx.Value ClaimsContextKey with
  | some (.ClaimsPtr claims) => claims
  | _ => none

/-- Function `GetUserIDFromContext` (`middleware.go`, lines 109-116). -/
def GetUserIDFromContext (ctx : Context) : String :=
  match GetClaimsFromContext ctx with
  | none => ""
  | some claims => claims.UserID

/-- Second half of `Authenticate` (`middleware.go`, lines 50-69): the Bearer format check,
the token validation and the call of `next` with the claims in the context. -/
def Middleware.checkBearer (ext : External) (m : Middleware) (r : Request)
    (authHeader : String) : Decision :=
  match Split authHeader (Char.ofNat 32) with
  | [first, tokenString] =>
    if first ≠ "Bearer" then .Respond StatusUnauthorized "Invalid authorization header"
    else
      match m.jwtService.ValidateToken ext tokenString with
      | .error _ => .Respond StatusUnauthorized "Invalid token"
      | .ok claims =>
        .Next (r.WithContext (WithValue r.Ctx ClaimsContextKey (.ClaimsPtr (some claims))))
  | _ => .Respond StatusUnauthorized "Invalid authorization header"

/-- Method `(m *Middleware) Authenticate(next)` (`middleware.go`, lines 35-71), as the decision
taken on a request. -/
def Middleware.Authenticate (ext : External) (m : Middleware) (r : Request) : Decision :=
  let authHeader := r.Authorization
  if authHeader = "" then
    match r.Cookie "access_token" with
    | none => .Respond StatusUnauthorized "Unauthorized"
    | some cookie => m.checkBearer ext r ("Bearer " ++ cookie.Value)
  else m.checkBearer ext r authHeader

/-- Method `(m *Middleware) RequirePermission(permission)` (`middleware.go`, lines 73-98), as
the decision taken on a request. -/
def Middleware.RequirePermission (_m : Middleware) (permission : Permission) (r : Request) :
    Decision :=
  match GetClaimsFromContext r.Ctx with
  | none => .Respond StatusUnauthorized "Unauthorized"
  | some claims =>
    let user : User := { Role := claims.Role }
    if !user.HasPermission permission then .Respond StatusForbidden "Forbidden"
    else .Next r

/-! ## `pkg/auth/handler.go` -/

/-- The methods of the `UserRepository` interface that `Login` calls. -/
structure UserRepository where
  GetByEmail : String → Except String User

/-- Handler (`handler.go`, lines 12-17). -/
structure Handler where
  userRepo : UserRepository
  jwtService : JWTService

/-- User DTO (`handler.go`, lines 42-50). -/
structure UserDTO where
  ID : String
  Email : String
  Name : String
  Role : Role
  LocationID : Option String
  IsActive : Bool
  deriving DecidableEq, Repr

/-- Login response (`handler.go`, lines 34-40). -/
structure LoginResponse where
  Success : Bool
  User : Option UserDTO
  Token : Option TokenPair
  Error : String
  deriving DecidableEq, Repr

/-- Cookie written with `http.SetCookie`. -/
structure SetCookie where
  Name : String
  Value : String
  Path : String
  HttpOnly : Bool
  Secure : Bool
  MaxAge : Int
  deriving DecidableEq, Repr

/-- What a handler writes: the status, the cookies set and the JSON body, which is a login
response or the error object of `sendError`. -/
structure Response where
  Status : Nat
  Cookies : List SetCookie
  Body : LoginResponse
  deriving DecidableEq, Repr

/-- Method `(h *Handler) sendError(w, message, status)` (`handler.go`, lines 245-252): the body
is the object with `success` false and `error` the message. -/
def sendError (message : String) (status : Nat) : Response :=
  { Status := status, Cookies := []
    Body := { Success := false, User := none, Token := none, Error := message } }

/-- Method `(u *User) CheckPassword(password)` (`user.go`, lines 104-108). -/
def User.CheckPassword (ext : External) (u : User) (password : String) : Bool :=
  ext.CompareHashAndPassword u.PasswordHash password

/-- Method `(h *Handler) Login(w, r)` (`handler.go`, lines 52-132); `now` is the value of
`time.Now()` read by `GenerateTokens`. -/
def Handler.Login (ext : External) (h : Handler) (now : Int) (r : Request) : Response :=
  match ext.DecodeLogin r.Body with
  | none => sendError "Invalid request body" StatusBadRequest
  | some (email, password) =>
    if email = "" ∨ password = "" then
      sendError "Email and password are required" StatusBadRequest
    else
      match h.userRepo.GetByEmail email with
      | .error _ => sendError "Invalid credentials" StatusUnauthorized
      | .ok user =>
        if !user.CheckPassword ext password then
          sendError "Invalid credentials" StatusUnauthorized
        else if !user.IsActive then
          sendError "Account is disabled" StatusForbidden
        else
          match h.jwtService.GenerateTokens ext now user with
          | .error _ => sendError "Internal server error" StatusInternalServerError
          | .ok tokens =>
            { Status := StatusOK
              Cookies :=
                [ { Name := "refresh_token", Value := tokens.RefreshToken, Path := "/api/v1/auth"
                    HttpOnly := true, Secure := false, MaxAge := 7 * 24 * Hour / Second },
                  { Name := "access_token", Value := tokens.AccessToken, Path := "/"
                    HttpOnly := true, Secure := false, MaxAge := 15 * Minute / Second } ]
              Body :=
                { Success := true
                  User := some { ID := user.ID, Email := user.Email, Name := user.Name
                                 Role := user.Role, LocationID := user.LocationID
                                 IsActive := user.IsActive }
                  Token := some tokens
                  Error := "" } }

/-! ## `pkg/auth/user.go`, `pkg/auth/handler.go`: the in-memory user repository -/

/-- The error values declared in `user.go` (lines 121-126). -/
inductive UserError where
  | ErrUserNotFound
  | ErrInvalidCredentials
  | ErrUserDisabled
  | ErrDuplicateEmail
  deriving DecidableEq, Repr

/-- Function `NewUser` (`user.go`, lines 128-144).  `uuid` is the value of
`uuid.New().String()`, `now` the value of `time.Now()`, and `generateFromPassword password`
the result of `bcrypt.GenerateFromPassword` in `SetPassword`. -/
def NewUser (uuid : String) (now : Int) (generateFromPassword : String → Except String String)
    (email name password : String) (role : Role) : Except String User :=
  let user : User :=
    { ID := uuid, Email := email, Name := name, Role := role, IsActive := true
      CreatedAt := now, UpdatedAt := now }
  match generateFromPassword password with
  | .error err => .error err
  | .ok hash => .ok { user with PasswordHash := hash }

/-- The in-memory repository (`handler.go`, lines 254-257) together with the `User` objects its
pointers refer to.  A `*User` is an address; `objects` gives the object at an address, `next`
is the first address not yet allocated, and `users` is the Go map `map[string]*User`. -/
structure InMemoryUserRepository where
  objects : Nat → User
  next : Nat
  users : String → Option Nat

/-- Allocation of a new `User` object: the address of the object and the memory after it. -/
def InMemoryUserRepository.alloc (r : InMemoryUserRepository) (user : User) :
    InMemoryUserRepository × Nat :=
  ({ r with objects := fun p => if p = r.next then user else r.objects p, next := r.next + 1 },
   r.next)

/-- Map assignment `m[key] = value`. -/
def mapSet (m : String → Option Nat) (key : String) (value : Nat) : String → Option Nat :=
  fun k => if k = key then some value else m k

/-- Map deletion `delete(m, key)`. -/
def mapDelete (m : String → Option Nat) (key : String) : String → Option Nat :=
  fun k => if k = key then none else m k

/-- Function `NewInMemoryUserRepository` (`handler.go`, lines 259-271): the default
administrator is stored under its ID and under its email.  `none` stands for the nil-pointer
panic when `NewUser` fails. -/
def NewInMemoryUserRepository (uuid : String) (now : Int)
    (generateFromPassword : String → Except String String) : Option InMemoryUserRepository :=
  let repo : InMemoryUserRepository :=
    { objects := fun _ => {}, next := 0, users := fun _ => none }
  match NewUser uuid now generateFromPassword "admin@zaigo.local" "管理者" "admin123"
      RoleSystemAdmin with
  | .error _ => none
  | .ok adminUser =>
    let (repo1, admin) := repo.alloc adminUser
    some { repo1 with
      users := mapSet (mapSet repo1.users (repo1.objects admin).ID admin)
        (repo1.objects admin).Email admin }

/-- Method `Create(ctx, user)` (`handler.go`, lines 273-280); `user` is the pointer passed. -/
def InMemoryUserRepository.Create (r : InMemoryUserRepository) (user : Nat) :
    InMemoryUserRepository × Option UserError :=
  match r.users (r.objects user).Email with
  | some _ => (r, some .ErrDuplicateEmail)
  | none =>
    ({ r with
       users := mapSet (mapSet r.users (r.objects user).ID user) (r.objects user).Email user },
     none)

/-- Method `GetByID(ctx, id)` (`handler.go`, lines 282-288): the stored pointer. -/
def InMemoryUserRepository.GetByID (r : InMemoryUserRepository) (id : String) :
    Except UserError Nat :=
  match r.users id with
  | none => .error .ErrUserNotFound
  | some user => .ok user

/-- Method `GetByEmail(ctx, email)` (`handler.go`, lines 290-296): the stored pointer. -/
def InMemoryUserRepository.GetByEmail (r : InMemoryUserRepository) (email : String) :
    Except UserError Nat :=
  match r.users email with
  | none => .error .ErrUserNotFound
  | some user => .ok user

/-- Method `Update(ctx, user)` (`handler.go`, lines 298-305); `user` is the pointer passed. -/
def InMemoryUserRepository.Update (r : InMemoryUserRepository) (user : Nat) :
    InMemoryUserRepository × Option UserError :=
  match r.users (r.objects user).ID with
  | none => (r, some .ErrUserNotFound)
  | some _ =>
    ({ r with
       users := mapSet (mapSet r.users (r.objects user).ID user) (r.objects user).Email user },
     none)

/-- Method `Delete(ctx, id)` (`handler.go`, lines 307-315). -/
def InMemoryUserRepository.Delete (r : InMemoryUserRepository) (id : String) :
    InMemoryUserRepository × Option UserError :=
  match r.users id with
  | none => (r, some .ErrUserNotFound)
  | some user =>
    ({ r with
       users := mapDelete (mapDelete r.users (r.objects user).ID) (r.objects user).Email },
     none)

/-! ## `pkg/auth/admin_handler.go` -/

/-- Update request (`admin_handler.go`, lines 26-33); an absent field is `none`. -/
structure UpdateUserRequest where
  Name : Option String := none
  Email : Option String := none
  Role : Option Role := none
  LocationID : Option String := none
  IsActive : Option Bool := none
  deriving DecidableEq, Repr

/-- Create request (`admin_handler.go`, lines 17-24). -/
structure CreateUserRequest where
  Email : String := ""
  Name : String := ""
  Password : String := ""
  Role : Role := ""
  LocationID : Option String := none
  deriving DecidableEq, Repr

def StatusCreated : Nat := 201
def StatusNotFound : Nat := 404
def StatusConflict : Nat := 409

/-- Method `(h *Handler) CreateUser(w, r)` (`admin_handler.go`, lines 76-114) over the
in-memory repository: the repository after the call, the status, and the DTO sent on
success.  `decode` is `json.NewDecoder(r.Body).Decode(&req)`; `uuid`, `now` and
`generateFromPassword` are the values read by `NewUser`. -/
def CreateUser (decode : String → Option CreateUserRequest) (uuid : String) (now : Int)
    (generateFromPassword : String → Except String String) (repo : InMemoryUserRepository)
    (r : Request) : InMemoryUserRepository × Nat × Option UserDTO :=
  match decode r.Body with
  | none => (repo, StatusBadRequest, none)
  | some req =>
    if req.Email = "" ∨ req.Name = "" ∨ req.Password = "" then (repo, StatusBadRequest, none)
    else
      match NewUser uuid now generateFromPassword req.Email req.Name req.Password req.Role with
      | .error _ => (repo, StatusInternalServerError, none)
      | .ok newUser =>
        let (repo1, user) := repo.alloc { newUser with LocationID := req.LocationID }
        match repo1.Create user with
        | (repo2, some .ErrDuplicateEmail) => (repo2, StatusConflict, none)
        | (repo2, some _) => (repo2, StatusInternalServerError, none)
        | (repo2, none) =>
          let u := repo2.objects user
          (repo2, StatusCreated,
            some { ID := u.ID, Email := u.Email, Name := u.Name, Role := u.Role
                   LocationID := u.LocationID, IsActive := u.IsActive })


/-- Lookup of a route variable, `mux.Vars(r)[name]`: the empty string when it is not bound. -/
def Request.Var (r : Request) (name : String) : String :=
  match r.Vars.find? (fun v => v.1 = name) with
  | some v => v.2
  | none => ""

/-- The field assignments of `UpdateUser` (`admin_handler.go`, lines 137-152) on the object
the pointer refers to. -/
def applyUpdate (user : User) (req : UpdateUserRequest) (now : Int) : User :=
  let user := match req.Name with
    | some name => { user with Name := name }
    | none => user
  let user := match req.Email with
    | some email => { user with Email := email }
    | none => user
  let user := match req.Role with
    | some role => { user with Role := role }
    | none => user
  let user := match req.LocationID with
    | some l => { user with LocationID := some l }
    | none => user
  let user := match req.IsActive with
    | some active => { user with IsActive := active }
    | none => user
  { user with UpdatedAt := now }

/-- Method `(h *Handler) UpdateUser(w, r)` (`admin_handler.go`, lines 116-167) over the
in-memory repository: the repository after the call, the status, and the DTO sent on
success.  `decode` is `json.NewDecoder(r.Body).Decode(&req)`, `none` on a decoding error; `now`
is the value of `time.Now()`.  The pointer returned by `GetByID` is the stored one, so the
assignments change the object seen under every key of the map. -/
def UpdateUser (decode : String → Option UpdateUserRequest) (repo : InMemoryUserRepository)
    (now : Int) (r : Request) : InMemoryUserRepository × Nat × Option UserDTO :=
  let userID := r.Var "userId"
  match repo.GetByID userID with
  | .error .ErrUserNotFound => (repo, StatusNotFound, none)
  | .error _ => (repo, StatusInternalServerError, none)
  | .ok user =>
    match decode r.Body with
    | none => (repo, StatusBadRequest, none)
    | some req =>
      let repo1 : InMemoryUserRepository :=
        { repo with
          objects := fun p => if p = user then applyUpdate (repo.objects user) req now
            else repo.objects p }
      match repo1.Update user with
      | (repo2, some _) => (repo2, StatusInternalServerError, none)
      | (repo2, none) =>
        let u := repo2.objects user
        (repo2, StatusOK,
          some { ID := u.ID, Email := u.Email, Name := u.Name, Role := u.Role
                 LocationID := u.LocationID, IsActive := u.IsActive })

/-- The user found by `GetByEmail`, if any. -/
def InMemoryUserRepository.userByEmail (r : InMemoryUserRepository) (email : String) :
    Option User :=
  match r.GetByEmail email with
  | .ok user => some (r.objects user)
  | .error _ => none

/-- The user found by `GetByID`, if any. -/
def InMemoryUserRepository.userByID (r : InMemoryUserRepository) (id : String) : Option User :=
  match r.GetByID id with
  | .ok user => some (r.objects user)
  | .error _ => none

/-- A user is stored when some key of the map points to it. -/
def InMemoryUserRepository.Stored (r : InMemoryUserRepository) (u : User) : Prop :=
  ∃ key p, r.users key = some p ∧ r.objects p = u

/-- Email uniqueness: no two stored users with different IDs have the same Email. -/
def InMemoryUserRepository.EmailUnique (r : InMemoryUserRepository) : Prop :=
  ∀ u v, r.Stored u → r.Stored v → u.ID ≠ v.ID → u.Email ≠ v.Email

/-- Every stored user is found by `GetByEmail` under its current Email and under no other
email string. -/
def InMemoryUserRepository.FoundByEmail (r : InMemoryUserRepository) : Prop :=
  ∀ u, r.Stored u →
    r.userByEmail u.Email = some u ∧ ∀ email, r.userByEmail email = some u → email = u.Email

end Auth

namespace Api

open Auth

/-! ## `cmd/api/main.go`: the router -/

/-- The handler functions registered in `setupRouter`. -/
inductive HandlerID where
  | HealthCheck | Metrics
  | Login | Logout | Refresh | Me
  | AddStock | RemoveStock | TransferStock | AdjustStock | BatchOperation
  | GetStock | GetTotalStock | GetStockByLocation
  | GetHistory | GetHistoryByLocation | GetHistoryByDateRange
  | GetAlerts | ResolveAlert
  | CreateItem | ListItems | SearchItems | GetItem | UpdateItem | DeleteItem
  | CreateLocation | ListLocations | GetLocation | UpdateLocation | DeleteLocation
  | CreateLot | GetLot | GetLotsByItem | GetExpiringLots | GetExpiredLots
  | ReserveStock | ReleaseReservation
  | GetBatchStatus
  | CalculateValue | CalculateTotalValue | GetAverageCost
  | CalculateABCClassification | GetTurnoverRate | GetSlowMovingItems | GenerateStockReport
  deriving DecidableEq, Repr

/-- A registered route: the full path template (the path prefixes of the enclosing subrouters
followed by the template given to `HandleFunc`), the method given to `Methods`, the handler,
and whether the route belongs to `protectedApi`, the subrouter that uses `Authenticate`. -/
structure Route where
  Template : String
  Method : String
  Handler : HandlerID
  Authenticated : Bool
  deriving DecidableEq, Repr

/-- Call `sub.HandleFunc(template, handler).Methods(method)` on a subrouter with the given
path and middleware. -/
def HandleFunc (subPath : String) (authenticated : Bool) (template : String)
    (handler : HandlerID) (method : String) : Route :=
  { Template := subPath ++ template, Method := method, Handler := handler
    Authenticated := authenticated }

/-- Function `setupRouter` (`main.go`, lines 110-190): the routes in registration order.  The
subrouter `api` has path `/api/v1`; `protectedApi` is registered on `api` after the three
`/auth` routes, with an empty path of its own and the `Authenticate` middleware. -/
def setupRouter : List Route :=
  [ HandleFunc "" false "/health" .HealthCheck "GET",
    HandleFunc "" false "/metrics" .Metrics "GET",
    HandleFunc "/api/v1" false "/auth/login" .Login "POST",
    HandleFunc "/api/v1" false "/auth/logout" .Logout "POST",
    HandleFunc "/api/v1" false "/auth/refresh" .Refresh "POST",
    HandleFunc "/api/v1" true "/auth/me" .Me "GET",
    HandleFunc "/api/v1" true "/inventory/add" .AddStock "POST",
    HandleFunc "/api/v1" true "/inventory/remove" .RemoveStock "POST",
    HandleFunc "/api/v1" true "/inventory/transfer" .TransferStock "POST",
    HandleFunc "/api/v1" true "/inventory/adjust" .AdjustStock "POST",
    HandleFunc "/api/v1" true "/inventory/batch" .BatchOperation "POST",
    HandleFunc "/api/v1" true "/inventory/{itemId}/{locationId}" .GetStock "GET",
    HandleFunc "/api/v1" true "/inventory/{itemId}/total" .GetTotalStock "GET",
    HandleFunc "/api/v1" true "/inventory/location/{locationId}" .GetStockByLocation "GET",
    HandleFunc "/api/v1" true "/inventory/{itemId}/history" .GetHistory "GET",
    HandleFunc "/api/v1" true "/inventory/history/location/{locationId}" .GetHistoryByLocation
      "GET",
    HandleFunc "/api/v1" true "/inventory/{itemId}/history/date-range" .GetHistoryByDateRange
      "GET",
    HandleFunc "/api/v1" true "/alerts/{locationId}" .GetAlerts "GET",
    HandleFunc "/api/v1" true "/alerts/{alertId}/resolve" .ResolveAlert "POST",
    HandleFunc "/api/v1" true "/items" .CreateItem "POST",
    HandleFunc "/api/v1" true "/items" .ListItems "GET",
    HandleFunc "/api/v1" true "/items/search" .SearchItems "GET",
    HandleFunc "/api/v1" true "/items/{itemId}" .GetItem "GET",
    HandleFunc "/api/v1" true "/items/{itemId}" .UpdateItem "PUT",
    HandleFunc "/api/v1" true "/items/{itemId}" .DeleteItem "DELETE",
    HandleFunc "/api/v1" true "/locations" .CreateLocation "POST",
    HandleFunc "/api/v1" true "/locations" .ListLocations "GET",
    HandleFunc "/api/v1" true "/locations/{locationId}" .GetLocation "GET",
    HandleFunc "/api/v1" true "/locations/{locationId}" .UpdateLocation "PUT",
    HandleFunc "/api/v1" true "/locations/{locationId}" .DeleteLocation "DELETE",
    HandleFunc "/api/v1" true "/lots" .CreateLot "POST",
    HandleFunc "/api/v1" true "/lots/{lotId}" .GetLot "GET",
    HandleFunc "/api/v1" true "/lots/item/{itemId}" .GetLotsByItem "GET",
    HandleFunc "/api/v1" true "/lots/expiring" .GetExpiringLots "GET",
    HandleFunc "/api/v1" true "/lots/expired" .GetExpiredLots "GET",
    HandleFunc "/api/v1" true "/inventory/reserve" .ReserveStock "POST",
    HandleFunc "/api/v1" true "/inventory/release-reservation" .ReleaseReservation "POST",
    HandleFunc "/api/v1" true "/inventory/batch/{batchId}/status" .GetBatchStatus "GET",
    HandleFunc "/api/v1" true "/valuation/{itemId}/{locationId}" .CalculateValue "GET",
    HandleFunc "/api/v1" true "/valuation/total/{locationId}" .CalculateTotalValue "GET",
    HandleFunc "/api/v1" true "/valuation/average-cost/{itemId}" .GetAverageCost "GET",
    HandleFunc "/api/v1" true "/analytics/abc/{locationId}" .CalculateABCClassification "GET",
    HandleFunc "/api/v1" true "/analytics/turnover/{itemId}" .GetTurnoverRate "GET",
    HandleFunc "/api/v1" true "/analytics/slow-moving/{locationId}" .GetSlowMovingItems "GET",
    HandleFunc "/api/v1" true "/analytics/report/{locationId}" .GenerateStockReport "GET" ]

/-- Name of the variable when a template segment is a variable, written with an opening
brace, the name and a closing brace. -/
def segmentVar (segment : String) : Option String :=
  match segment.data with
  | [] => none
  | c :: rest =>
    if c = Char.ofNat 123 ∧ rest.getLast? = some (Char.ofNat 125) then
      some (String.mk rest.dropLast)
    else none

/-- Matching of the segments of a path against the segments of a template: a literal segment
matches itself, a variable segment matches any non-empty segment and binds it. -/
def matchSegments : List String → List String → Option (List (String × String))
  | [], [] => some []
  | t :: ts, p :: ps =>
    match segmentVar t with
    | some name =>
      if p = "" then none
      else
        match matchSegments ts ps with
        | some vars => some ((name, p) :: vars)
        | none => none
    | none => if t = p then matchSegments ts ps else none
  | _, _ => none

/-- Matching of a whole path against a path template; a variable stands for one or more
characters other than the slash. -/
def matchTemplate (template path : String) : Option (List (String × String)) :=
  matchSegments (Split template (Char.ofNat 47)) (Split path (Char.ofNat 47))

/-- Route selection of the router (`github.com/gorilla/mux`, not part of the repository):
the routes are tried in registration order and the first one whose method and path template
both accept the request is selected, with the variables it binds. -/
def Match : List Route → Request → Option (Route × List (String × String))
  | [], _ => none
  | route :: rest, r =>
    if route.Method = r.Method then
      match matchTemplate route.Template r.Path with
      | some vars => some (route, vars)
      | none => Match rest r
    else Match rest r

/-- Result of serving a request: no route is selected (the router answers 404 or 405 itself),
a middleware answers, or a handler is called with a request. -/
inductive Served where
  | NoRoute
  | Responded (status : Nat) (message : String)
  | Handled (handler : HandlerID) (r : Request)
  deriving DecidableEq, Repr

/-- The router returned by `setupRouter` serving a request (`main.go`, lines 110-212): the
selected handler is wrapped by the CORS middleware of the router (lines 193-206), which
answers `OPTIONS` itself, by the logging middleware, and on `protectedApi` by `Authenticate`. -/
def ServeHTTP (ext : External) (authMiddleware : Middleware) (r : Request) : Served :=
  match Match setupRouter r with
  | none => .NoRoute
  | some (route, vars) =>
    let r1 : Request := { r with Vars := vars }
    if r1.Method = "OPTIONS" then .Responded StatusOK ""
    else if route.Authenticated then
      match authMiddleware.Authenticate ext r1 with
      | .Respond status message => .Responded status message
      | .Next r2 => .Handled route.Handler r2
    else .Handled route.Handler r1

/-- The handlers that mutate inventory. -/
def mutatingInventoryHandlers : List HandlerID :=
  [.AddStock, .RemoveStock, .TransferStock, .AdjustStock, .BatchOperation, .ReserveStock,
   .ReleaseReservation]

end Api

/-! ## Auxiliary definitions for the statements -/

namespace Auth

/-- A decision that calls `next`. -/
def Decision.isNext : Decision → Bool
  | .Next _ => true
  | .Respond _ _ => false

/-- The second of exactly two space-separated parts of a header value whose first part is
exactly `Bearer`. -/
def headerToken (header : String) : Option String :=
  match Split header (Char.ofNat 32) with
  | [first, token] => if first = "Bearer" then some token else none
  | _ => none

/-- Token string as the contract of `Authenticate` words it: the second of exactly two
space-separated parts of the Authorization header whose first part is exactly `Bearer`, or,
when the header is empty, the value of the `access_token` cookie. -/
def bearerToken (r : Request) : Option String :=
  if r.Authorization = "" then
    match r.Cookie "access_token" with
    | some cookie => some cookie.Value
    | none => none
  else headerToken r.Authorization

/-- Claims of a sample viewer account. -/
def viewerClaims : Claims :=
  { UserID := "u-7", Email := "viewer@zaigo.local", Name := "viewer", Role := RoleViewer }

/-- A sample instance of the third-party functions: signing yields fixed strings, the only
token accepted is `viewer-token` (signed with an HMAC method), which carries `viewerClaims`;
a password matches when it equals the stored hash; a body decodes to itself as the email and
`pw` as the password. -/
def sampleExternal : External :=
  { SignedString := fun _ _ => .ok "viewer-token"
    SignedRegistered := fun _ _ => .ok "refresh-token"
    ParseWithClaims := fun tokenString keyFunc =>
      match keyFunc .HMAC with
      | .error err => .error err
      | .ok _ =>
        if tokenString = "viewer-token" then .ok { Claims := some viewerClaims, Valid := true }
        else .error "token is malformed"
    CompareHashAndPassword := fun hash password => hash = password
    DecodeLogin := fun body => some (body, "pw") }

/-- A sample repository holding one active viewer whose stored hash is `pw`. -/
def sampleRepo : UserRepository :=
  { GetByEmail := fun email =>
      if email = "viewer@zaigo.local" then
        .ok { ID := "u-7", Email := email, Name := "viewer", PasswordHash := "pw"
              Role := RoleViewer, IsActive := true }
      else .error "user not found" }

/-- A sample handler over the sample repository with the default JWT configuration. -/
def sampleHandler : Handler :=
  { userRepo := sampleRepo, jwtService := NewJWTService none }

/-- A sample request that carries the token `viewer-token` in the `access_token` cookie. -/
def cookieRequest : Request :=
  { Method := "GET", Path := "/api/v1/auth/me"
    Cookies := [{ Name := "access_token", Value := "viewer-token" }] }

/-- A sample middleware with the default JWT configuration. -/
def sampleMiddleware : Middleware :=
  { jwtService := NewJWTService none }

/-- A sample password hasher: the hash of a password is the password. -/
def sampleHasher (password : String) : Except String String := .ok password

/-- A sample decoder of create requests: the body is the name of a viewer whose email is the
name followed by `@zaigo.local`. -/
def sampleDecodeCreate (body : String) : Option CreateUserRequest :=
  some { Email := body ++ "@zaigo.local", Name := body, Password := "pw", Role := RoleViewer }

/-- A sample decoder of update requests: the body is the new email. -/
def sampleDecodeUpdate (body : String) : Option UpdateUserRequest :=
  some { Email := some body }

/-- The repository as `NewInMemoryUserRepository` returns it, the administrator having the
ID `u-0`. -/
def repoNew : InMemoryUserRepository :=
  match NewInMemoryUserRepository "u-0" 0 sampleHasher with
  | some repo => repo
  | none => { objects := fun _ => {}, next := 0, users := fun _ => none }

/-- The repository after `CreateUser` for alice (ID `u-1`) and for bob (ID `u-2`). -/
def repoTwoUsers : InMemoryUserRepository :=
  (CreateUser sampleDecodeCreate "u-2" 2 sampleHasher
    (CreateUser sampleDecodeCreate "u-1" 1 sampleHasher repoNew { Body := "alice" }).1
    { Body := "bob" }).1

/-- The request of `UpdateUser` that changes the email of bob to the email of alice. -/
def renameRequest : Request :=
  { Method := "PUT", Vars := [("userId", "u-2")], Body := "alice@zaigo.local" }

/-- The repository after that `UpdateUser`. -/
def repoRenamed : InMemoryUserRepository :=
  (UpdateUser sampleDecodeUpdate repoTwoUsers 3 renameRequest).1

/-- The user alice as created. -/
def alice : User :=
  { ID := "u-1", Email := "alice@zaigo.local", Name := "alice", PasswordHash := "pw"
    Role := RoleViewer, IsActive := true, CreatedAt := 1, UpdatedAt := 1 }

/-- The user bob after the update: the email is the email of alice. -/
def bobRenamed : User :=
  { ID := "u-2", Email := "alice@zaigo.local", Name := "bob", PasswordHash := "pw"
    Role := RoleViewer, IsActive := true, CreatedAt := 2, UpdatedAt := 3 }

/-- The access claims `GenerateTokens` builds for alice at time 0 under the default
configuration. -/
def aliceClaims : Claims :=
  { UserID := "u-1", Email := "alice@zaigo.local", Name := "alice", Role := RoleViewer
    LocationID := ""
    Registered :=
      { Issuer := "zaigo-system", Subject := "u-1", ExpiresAt := some (15 * Minute)
        IssuedAt := some 0 } }

/-- A sample instance of the third-party functions in which a token is bound to the claims and
the key it was signed with: the signer signs `aliceClaims` under the default key as
`alice-token`, and the parser returns `aliceClaims` for `alice-token` when the key function
gives the default key for an HMAC method. -/
def bindingExternal : External :=
  { sampleExternal with
    SignedString := fun claims key =>
      if claims = aliceClaims ∧ key = DefaultConfig.SecretKey then .ok "alice-token"
      else .error "key is of invalid type"
    ParseWithClaims := fun tokenString keyFunc =>
      match keyFunc .HMAC with
      | .error err => .error err
      | .ok key =>
        if tokenString = "alice-token" ∧ key = DefaultConfig.SecretKey then
          .ok { Claims := some aliceClaims, Valid := true }
        else .error "signature is invalid" }

end Auth

namespace Api

open Auth

/-- A POST request to a path that carries the sample viewer token as a Bearer token. -/
def viewerPost (path : String) : Request :=
  { Method := "POST", Path := path, Authorization := "Bearer viewer-token" }

/-- The paths of the mutating inventory routes, each with the handler registered for it. -/
def mutatingPaths : List (String × HandlerID) :=
  [("/api/v1/inventory/add", .AddStock), ("/api/v1/inventory/remove", .RemoveStock),
   ("/api/v1/inventory/transfer", .TransferStock), ("/api/v1/inventory/adjust", .AdjustStock),
   ("/api/v1/inventory/batch", .BatchOperation), ("/api/v1/inventory/reserve", .ReserveStock),
   ("/api/v1/inventory/release-reservation", .ReleaseReservation)]

/-- Handler selected by the router for a request, if any. -/
def dispatch (r : Request) : Option HandlerID :=
  (Match setupRouter r).map (fun m => m.1.Handler)

/-- A template segment `a` accepts every path segment that the template segment `b` accepts:
`a` is a variable and `b` is a variable or a non-empty literal, or both are the same literal. -/
def segmentCovers (a b : String) : Bool :=
  match segmentVar a with
  | some _ => (segmentVar b).isSome || b != ""
  | none => (segmentVar b).isNone && a == b

/-- Segment by segment, the first template accepts every path the second accepts. -/
def templateCovers : List String → List String → Bool
  | [], [] => true
  | a :: as, b :: bs => segmentCovers a b && templateCovers as bs
  | _, _ => false

/-- A route is shadowed by an earlier route: same method, covering template, other handler. -/
def shadows (a b : Route) : Bool :=
  a.Method == b.Method && a.Handler != b.Handler &&
    templateCovers (Split a.Template (Char.ofNat 47)) (Split b.Template (Char.ofNat 47))

/-- The handlers whose route is registered after a route that shadows it. -/
def shadowedHandlers : List HandlerID :=
  [.GetTotalStock, .GetStockByLocation, .GetHistory, .GetExpiringLots, .GetExpiredLots,
   .CalculateTotalValue, .GetAverageCost]

/-- A request with the given method and path. -/
def request (method path : String) : Request :=
  { Method := method, Path := path }

/-- One request for each of the other registered routes, with the handler registered for it. -/
def reachableSamples : List (Request × HandlerID) :=
  [(request "GET" "/health", .HealthCheck),
   (request "GET" "/metrics", .Metrics),
   (request "POST" "/api/v1/auth/login", .Login),
   (request "POST" "/api/v1/auth/logout", .Logout),
   (request "POST" "/api/v1/auth/refresh", .Refresh),
   (request "GET" "/api/v1/auth/me", .Me),
   (request "POST" "/api/v1/inventory/add", .AddStock),
   (request "POST" "/api/v1/inventory/remove", .RemoveStock),
   (request "POST" "/api/v1/inventory/transfer", .TransferStock),
   (request "POST" "/api/v1/inventory/adjust", .AdjustStock),
   (request "POST" "/api/v1/inventory/batch", .BatchOperation),
   (request "GET" "/api/v1/inventory/item-1/loc-1", .GetStock),
   (request "GET" "/api/v1/inventory/history/location/loc-1", .GetHistoryByLocation),
   (request "GET" "/api/v1/inventory/item-1/history/date-range", .GetHistoryByDateRange),
   (request "GET" "/api/v1/alerts/loc-1", .GetAlerts),
   (request "POST" "/api/v1/alerts/alert-1/resolve", .ResolveAlert),
   (request "POST" "/api/v1/items", .CreateItem),
   (request "GET" "/api/v1/items", .ListItems),
   (request "GET" "/api/v1/items/search", .SearchItems),
   (request "GET" "/api/v1/items/item-1", .GetItem),
   (request "PUT" "/api/v1/items/item-1", .UpdateItem),
   (request "DELETE" "/api/v1/items/item-1", .DeleteItem),
   (request "POST" "/api/v1/locations", .CreateLocation),
   (request "GET" "/api/v1/locations", .ListLocations),
   (request "GET" "/api/v1/locations/loc-1", .GetLocation),
   (request "PUT" "/api/v1/locations/loc-1", .UpdateLocation),
   (request "DELETE" "/api/v1/locations/loc-1", .DeleteLocation),
   (request "POST" "/api/v1/lots", .CreateLot),
   (request "GET" "/api/v1/lots/lot-1", .GetLot),
   (request "GET" "/api/v1/lots/item/item-1", .GetLotsByItem),
   (request "POST" "/api/v1/inventory/reserve", .ReserveStock),
   (request "POST" "/api/v1/inventory/release-reservation", .ReleaseReservation),
   (request "GET" "/api/v1/inventory/batch/batch-1/status", .GetBatchStatus),
   (request "GET" "/api/v1/valuation/item-1/loc-1", .CalculateValue),
   (request "GET" "/api/v1/analytics/abc/loc-1", .CalculateABCClassification),
   (request "GET" "/api/v1/analytics/turnover/item-1", .GetTurnoverRate),
   (request "GET" "/api/v1/analytics/slow-moving/loc-1", .GetSlowMovingItems),
   (request "GET" "/api/v1/analytics/report/loc-1", .GenerateStockReport)]

/-- The routes of a list that no earlier route shadows; `pre` holds the routes already passed. -/
def unshadowed : List Route → List Route → List Route
  | _, [] => []
  | pre, b :: rest =>
    if pre.any (fun a => shadows a b) then unshadowed (pre ++ [b]) rest
    else b :: unshadowed (pre ++ [b]) rest

/-- Handler called when a request is served, if one is called. -/
def Served.handler : Served → Option HandlerID
  | .Handled h _ => some h
  | _ => none

/-- Whether an optional handler is one of the shadowed handlers. -/
def isShadowed : Option HandlerID → Bool
  | some h => shadowedHandlers.contains h
  | none => false

/-- The authenticated GET request of `TestGetTotalStock_Success`
(`handlers_test.go`, line 363), carrying the sample viewer token. -/
def totalStockRequest : Request :=
  { Method := "GET", Path := "/api/v1/inventory/item-1/total"
    Authorization := "Bearer viewer-token" }

end Api

/-! # Theorems -/

namespace Inventory

/-! ## Reservation bound is preserved by every ledger call -/

theorem commit_current (cfg : Config) (now : Nat) (s : Ledger) (k : Key) (kind : OpKind)
    (delta : Int) (st : Stock) (bal : Int) (ref : String) (corr : Option Nat) (k' : Key) :
    (commit cfg now s k kind delta st bal ref corr).current k' =
      if k' = k then st else s.current k' := by
  unfold commit Ledger.current setStock
  by_cases h : k' = k <;> simp [h]

theorem commit_bound (cfg : Config) (now : Nat) (s : Ledger) (k : Key) (kind : OpKind)
    (delta : Int) (st : Stock) (bal : Int) (ref : String) (corr : Option Nat)
    (hs : ReservationBound s) (hst : 0 ≤ st.ReservedQuantity ∧ st.ReservedQuantity ≤ st.Quantity) :
    ReservationBound (commit cfg now s k kind delta st bal ref corr) := by
  intro k'
  rw [commit_current]
  by_cases h : k' = k
  · simpa [h] using hst
  · simpa [h] using hs k'

theorem addLeg_bound (cfg : Config) (now : Nat) (s s' : Ledger) (k : Key) (qty : Int)
    (ref : String) (kind : OpKind) (corr : Option Nat) (hs : ReservationBound s)
    (h : addLeg cfg now s k qty ref kind corr = .ok s') : ReservationBound s' := by
  unfold addLeg at h
  split at h
  · cases h
  · injection h with h
    subst h
    apply commit_bound _ _ _ _ _ _ _ _ _ _ hs
    have := hs k
    constructor
    · exact this.1
    · show (s.current k).ReservedQuantity ≤ (s.current k).Quantity + qty
      omega

theorem removeLeg_bound (cfg : Config) (now : Nat) (s s' : Ledger) (k : Key) (qty : Int)
    (ref : String) (kind : OpKind) (corr : Option Nat) (hs : ReservationBound s)
    (h : removeLeg cfg now s k qty ref kind corr = .ok s') : ReservationBound s' := by
  unfold removeLeg at h
  split at h
  · cases h
  · simp only at h
    split at h
    · cases h
    · rename_i hq hav
      injection h with h
      subst h
      apply commit_bound _ _ _ _ _ _ _ _ _ _ hs
      have := hs k
      simp only [not_lt, Stock.available] at hav
      constructor
      · exact this.1
      · show (s.current k).ReservedQuantity ≤ (s.current k).Quantity - qty
        omega

theorem adjustTx_bound (cfg : Config) (now : Nat) (s s' : Ledger) (k : Key) (q : Int)
    (ref : String) (hs : ReservationBound s)
    (h : adjustTx cfg now s k q ref = .ok s') : ReservationBound s' := by
  unfold adjustTx at h
  simp only at h
  split at h
  · cases h
  · split at h
    · cases h
    · rename_i h1 h2
      injection h with h
      subst h
      apply commit_bound _ _ _ _ _ _ _ _ _ _ hs
      have := hs k
      constructor
      · exact this.1
      · show (s.current k).ReservedQuantity ≤ q
        omega

theorem transferTx_bound (cfg : Config) (now : Nat) (s s' : Ledger) (i f t : String) (q : Int)
    (ref : String) (hs : ReservationBound s)
    (h : transferTx cfg now s i f t q ref = .ok s') : ReservationBound s' := by
  unfold transferTx at h
  simp only at h
  split at h
  · cases h
  · rename_i s1 h1
    exact addLeg_bound _ _ _ _ _ _ _ _ _ (removeLeg_bound _ _ _ _ _ _ _ _ _ hs h1) h

theorem reserveTx_bound (cfg : Config) (now : Nat) (s s' : Ledger) (k : Key) (qty : Int)
    (ref : String) (hs : ReservationBound s)
    (h : reserveTx cfg now s k qty ref = .ok s') : ReservationBound s' := by
  unfold reserveTx at h
  split at h
  · cases h
  · simp only at h
    split at h
    · cases h
    · rename_i hq hav
      injection h with h
      subst h
      apply commit_bound _ _ _ _ _ _ _ _ _ _ hs
      have := hs k
      simp only [not_lt, Stock.available] at hav
      constructor
      · show 0 ≤ (s.current k).ReservedQuantity + qty
        omega
      · show (s.current k).ReservedQuantity + qty ≤ (s.current k).Quantity
        omega

theorem releaseTx_bound (cfg : Config) (now : Nat) (s s' : Ledger) (k : Key) (qty : Int)
    (ref : String) (hs : ReservationBound s)
    (h : releaseTx cfg now s k qty ref = .ok s') : ReservationBound s' := by
  unfold releaseTx at h
  split at h
  · cases h
  · simp only at h
    split at h
    · cases h
    · rename_i hq hav
      injection h with h
      subst h
      apply commit_bound _ _ _ _ _ _ _ _ _ _ hs
      have := hs k
      constructor
      · show 0 ≤ (s.current k).ReservedQuantity - qty
        omega
      · show (s.current k).ReservedQuantity - qty ≤ (s.current k).Quantity
        omega

theorem settle_bound (s : Ledger) (r : Except LedgerError Ledger) (hs : ReservationBound s)
    (h : ∀ s', r = .ok s' → ReservationBound s') : ReservationBound (settle s r).1 := by
  cases r with
  | error e => exact hs
  | ok s' => exact h s' rfl

theorem applyOp_bound (cfg : Config) (now : Nat) (s s' : Ledger) (op : InventoryOperation)
    (hs : ReservationBound s)
    (h : applyOp cfg now s op = .ok s') : ReservationBound s' := by
  cases op with
  | Add i l q r => exact addLeg_bound _ _ _ _ _ _ _ _ _ hs h
  | Remove i l q r => exact removeLeg_bound _ _ _ _ _ _ _ _ _ hs h
  | Transfer i f t q r => exact transferTx_bound _ _ _ _ _ _ _ _ _ hs h
  | Adjust i l q r => exact adjustTx_bound _ _ _ _ _ _ _ hs h

theorem runOps_bound (cfg : Config) (now : Nat)
    (ops : List InventoryOperation) :
    ∀ (s s' : Ledger) (idx : Nat), ReservationBound s →
      runOps cfg now s idx ops = .ok s' → ReservationBound s' := by
  induction ops with
  | nil =>
    intro s s' idx hs h
    simp only [runOps] at h
    injection h with h
    subst h
    exact hs
  | cons op rest ih =>
    intro s s' idx hs h
    simp only [runOps] at h
    split at h
    · cases h
    · rename_i s1 h1
      exact ih s1 s' (idx + 1) (applyOp_bound _ _ _ _ _ hs h1) h

theorem ExecuteBatch_bound (cfg : Config) (now : Nat) (s : Ledger) (ops : List InventoryOperation)
    (hs : ReservationBound s) :
    ReservationBound (ExecuteBatch cfg now s ops).1 := by
  have hview : ReservationBound (batchView s) := hs
  unfold ExecuteBatch
  simp only
  split
  · rename_i s' h
    exact runOps_bound cfg now ops _ s' 0 hview h
  · exact hs

theorem step_bound (cfg : Config) (s : Ledger) (c : Call)
    (hs : ReservationBound s) :
    ReservationBound (step cfg s c) := by
  cases c with
  | Add now i l q r => exact settle_bound _ _ hs (fun s' h => addLeg_bound _ _ _ _ _ _ _ _ _ hs h)
  | Remove now i l q r =>
    exact settle_bound _ _ hs (fun s' h => removeLeg_bound _ _ _ _ _ _ _ _ _ hs h)
  | Adjust now i l q r => exact settle_bound _ _ hs (fun s' h => adjustTx_bound _ _ _ _ _ _ _ hs h)
  | Transfer now i f t q r =>
    exact settle_bound _ _ hs (fun s' h => transferTx_bound _ _ _ _ _ _ _ _ _ hs h)
  | Reserve now i l q r => exact settle_bound _ _ hs (fun s' h => reserveTx_bound _ _ _ _ _ _ _ hs h)
  | ReleaseReservation now i l q r =>
    exact settle_bound _ _ hs (fun s' h => releaseTx_bound _ _ _ _ _ _ _ hs h)
  | ExecuteBatch now ops => exact ExecuteBatch_bound _ _ _ _ hs

theorem foldl_step_bound (cfg : Config) (calls : List Call) :
    ∀ s : Ledger, ReservationBound s → ReservationBound (calls.foldl (step cfg) s) := by
  induction calls with
  | nil => intro s hs; exact hs
  | cons c rest ih => intro s hs; exact ih _ (step_bound cfg s c hs)

theorem empty_bound : ReservationBound Ledger.empty := by
  intro k
  simp [Ledger.empty, Ledger.current]

/-! ## Batches -/

theorem runOps_first_failure (cfg : Config) (now : Nat) (op : InventoryOperation)
    (rest : List InventoryOperation) (e : LedgerError) (pre : List InventoryOperation) :
    ∀ (s mid : Ledger) (idx : Nat), runOps cfg now s idx pre = .ok mid →
      applyOp cfg now mid op = .error e →
      runOps cfg now s idx (pre ++ op :: rest) = .error (idx + pre.length, e) := by
  induction pre with
  | nil =>
    intro s mid idx hpre hfail
    simp only [runOps] at hpre
    injection hpre with hpre
    subst hpre
    simp [runOps, hfail]
  | cons p ps ih =>
    intro s mid idx hpre hfail
    simp only [runOps] at hpre
    split at hpre
    · cases hpre
    · rename_i s1 h1
      have := ih s1 mid (idx + 1) hpre hfail
      have hidx : idx + 1 + ps.length = idx + (ps.length + 1) := by omega
      rw [hidx] at this
      simp only [List.cons_append, runOps, h1, List.length_cons]
      exact this

theorem split_at_index {α : Type} (l : List α) (i : Nat) (x : α) (h : l[i]? = some x) :
    l = l.take i ++ x :: l.drop (i + 1) ∧ (l.take i).length = i := by
  have hlt : i < l.length := by
    rcases Nat.lt_or_ge i l.length with h' | h'
    · exact h'
    · rw [List.getElem?_eq_none h'] at h
      cases h
  have hx : l[i] = x := by
    rw [List.getElem?_eq_getElem hlt] at h
    injection h
  constructor
  · rw [← hx, ← List.drop_eq_getElem_cons hlt, List.take_append_drop]
  · rw [List.length_take]
    omega

/-! ## Claims on the ledger contract -/

/-- C1. With negative stock disallowed and `qty > 0`: when `quantity - reservedQuantity < qty`
Remove fails with InsufficientStock and leaves the quantity and the reserved quantity of the key
unchanged; otherwise it succeeds and the quantity of the key decreases by exactly `qty`. -/
theorem Remove_negative_stock_disallowed (cfg : Config) (now : Nat) (s : Ledger)
    (itemID locationID reference : String) (qty : Int)
    (hcfg : cfg.AllowNegativeStock = false) (hq : 0 < qty) :
    ((s.current (itemID, locationID)).Quantity - (s.current (itemID, locationID)).ReservedQuantity
        < qty →
      (Remove cfg now s itemID locationID qty reference).2 = some .InsufficientStock ∧
      ((Remove cfg now s itemID locationID qty reference).1.current (itemID, locationID)).Quantity
        = (s.current (itemID, locationID)).Quantity ∧
      ((Remove cfg now s itemID locationID qty reference).1.current
        (itemID, locationID)).ReservedQuantity
        = (s.current (itemID, locationID)).ReservedQuantity) ∧
    (¬ (s.current (itemID, locationID)).Quantity
          - (s.current (itemID, locationID)).ReservedQuantity < qty →
      (Remove cfg now s itemID locationID qty reference).2 = none ∧
      ((Remove cfg now s itemID locationID qty reference).1.current (itemID, locationID)).Quantity
        = (s.current (itemID, locationID)).Quantity - qty) := by
  have hq' : ¬ qty ≤ 0 := by omega
  have _ := hcfg
  constructor
  · intro hav
    have : removeLeg cfg now s (itemID, locationID) qty reference .Remove none
        = .error .InsufficientStock := by
      simp [removeLeg, hq', Stock.available, hav]
    simp [Remove, this, settle]
  · intro hav
    have : removeLeg cfg now s (itemID, locationID) qty reference .Remove none
        = .ok (commit cfg now s (itemID, locationID) .Remove (-qty)
            { s.current (itemID, locationID) with
              Quantity := (s.current (itemID, locationID)).Quantity - qty }
            ((s.current (itemID, locationID)).Quantity - qty) reference none) := by
      simp [removeLeg, hq', Stock.available, hav]
    simp [Remove, this, settle, commit_current]

/-- Witness of C1 on the ledger holding 100 units of SKU1 at L1: removing 150 is rejected
with InsufficientStock, removing 40 is accepted and leaves 60. -/
theorem Remove_negative_stock_disallowed_witness :
    (Remove ⟨false, true⟩ 2 (run ⟨false, true⟩ [.Add 1 "SKU1" "L1" 100 "PO-1"])
        "SKU1" "L1" 150 "X").2 = some .InsufficientStock ∧
    ((Remove ⟨false, true⟩ 2 (run ⟨false, true⟩ [.Add 1 "SKU1" "L1" 100 "PO-1"])
        "SKU1" "L1" 40 "Y").1.current ("SKU1", "L1")).Quantity = 100 - 40 :=
  ⟨((Remove_negative_stock_disallowed ⟨false, true⟩ 2
        (run ⟨false, true⟩ [.Add 1 "SKU1" "L1" 100 "PO-1"]) "SKU1" "L1" "X" 150 rfl
        (by decide)).1 (by decide)).1,
   ((Remove_negative_stock_disallowed ⟨false, true⟩ 2
        (run ⟨false, true⟩ [.Add 1 "SKU1" "L1" 100 "PO-1"]) "SKU1" "L1" "Y" 40 rfl
        (by decide)).2 (by decide)).2⟩

/-- C2. In every state reached from the empty ledger by any sequence of Add, Remove, Adjust,
Transfer, Reserve, ReleaseReservation and ExecuteBatch calls, whatever the configuration,
every key has `0 ≤ reservedQuantity ≤ quantity`, and every Remove accepted in such a state
leaves `quantity - reservedQuantity ≥ 0` on every key. -/
theorem reservation_bound_reachable (cfg : Config) (calls : List Call) (k : Key) :
    (0 ≤ ((run cfg calls).current k).ReservedQuantity ∧
      ((run cfg calls).current k).ReservedQuantity ≤ ((run cfg calls).current k).Quantity) ∧
    ∀ (now : Nat) (itemID locationID : String) (qty : Int) (reference : String),
      (Remove cfg now (run cfg calls) itemID locationID qty reference).2 = none →
      0 ≤ ((Remove cfg now (run cfg calls) itemID locationID qty reference).1.current k).Quantity
        - ((Remove cfg now (run cfg calls) itemID locationID qty
            reference).1.current k).ReservedQuantity := by
  have hrun : ReservationBound (run cfg calls) :=
    foldl_step_bound cfg calls _ empty_bound
  refine ⟨hrun k, ?_⟩
  intro now itemID locationID qty reference _
  have hstep := step_bound cfg (run cfg calls) (.Remove now itemID locationID qty reference)
    hrun k
  simp only [step] at hstep
  omega

/-- Witness of C2, with negative stock allowed: after Add 10 and Reserve 4 the call Remove 5 is
accepted and leaves quantity 5 with reserved 4, so `quantity - reservedQuantity` is not below
0; the reserved quantity stays within the quantity. -/
theorem reservation_bound_reachable_witness :
    (Remove ⟨true, true⟩ 3
        (run ⟨true, true⟩ [.Add 1 "SKU1" "L1" 10 "PO-1", .Reserve 2 "SKU1" "L1" 4 "R-1"])
        "SKU1" "L1" 5 "X").2 = none ∧
    0 ≤ ((Remove ⟨true, true⟩ 3
        (run ⟨true, true⟩ [.Add 1 "SKU1" "L1" 10 "PO-1", .Reserve 2 "SKU1" "L1" 4 "R-1"])
        "SKU1" "L1" 5 "X").1.current ("SKU1", "L1")).Quantity
      - ((Remove ⟨true, true⟩ 3
        (run ⟨true, true⟩ [.Add 1 "SKU1" "L1" 10 "PO-1", .Reserve 2 "SKU1" "L1" 4 "R-1"])
        "SKU1" "L1" 5 "X").1.current ("SKU1", "L1")).ReservedQuantity ∧
    ((run ⟨true, true⟩ [.Add 1 "SKU1" "L1" 10 "PO-1",
        .Reserve 2 "SKU1" "L1" 4 "R-1"]).current ("SKU1", "L1")).ReservedQuantity ≤
    ((run ⟨true, true⟩ [.Add 1 "SKU1" "L1" 10 "PO-1",
        .Reserve 2 "SKU1" "L1" 4 "R-1"]).current ("SKU1", "L1")).Quantity :=
  ⟨by decide,
   (reservation_bound_reachable ⟨true, true⟩
      [.Add 1 "SKU1" "L1" 10 "PO-1", .Reserve 2 "SKU1" "L1" 4 "R-1"] ("SKU1", "L1")).2
      3 "SKU1" "L1" 5 "X" (by decide),
   (reservation_bound_reachable ⟨true, true⟩
      [.Add 1 "SKU1" "L1" 10 "PO-1", .Reserve 2 "SKU1" "L1" 4 "R-1"] ("SKU1", "L1")).1.2⟩

/-- C3. When the operations before index `i` succeed in list order on the view of the batch and
the operation at index `i` fails, ExecuteBatch leaves the stock map and the transaction log
identical to the pre-batch state and reports status Failed with index `i` and the cause. -/
theorem ExecuteBatch_failure_is_atomic (cfg : Config) (now : Nat) (s mid : Ledger)
    (operations : List InventoryOperation) (i : Nat) (op : InventoryOperation) (e : LedgerError)
    (hpre : runOps cfg now (batchView s) 0 (operations.take i) = .ok mid)
    (hop : operations[i]? = some op)
    (hfail : applyOp cfg now mid op = .error e) :
    (ExecuteBatch cfg now s operations).1.stocks = s.stocks ∧
    (ExecuteBatch cfg now s operations).1.log = s.log ∧
    (ExecuteBatch cfg now s operations).2.Status = .Failed ∧
    (ExecuteBatch cfg now s operations).2.Failure = some (i, e) := by
  obtain ⟨hsplit, hlen⟩ := split_at_index operations i op hop
  have hrun := runOps_first_failure cfg now op (operations.drop (i + 1)) e (operations.take i)
    _ mid 0 hpre hfail
  rw [← hsplit, hlen, Nat.zero_add] at hrun
  unfold ExecuteBatch
  simp only [hrun]
  exact ⟨rfl, rfl, trivial, trivial⟩

/-- Witness of C3: on a ledger holding 5 units of SKU3, the batch [Add SKU2 10, Remove SKU3 999]
fails at index 1 with InsufficientStock and the transaction log is the pre-batch log. -/
theorem ExecuteBatch_failure_is_atomic_witness :
    (ExecuteBatch ⟨false, true⟩ 9 (run ⟨false, true⟩ [.Add 1 "SKU3" "L1" 5 "PO-3"])
      [.Add "SKU2" "L1" 10 "r1", .Remove "SKU3" "L1" 999 "r2"]).1.log
      = (run ⟨false, true⟩ [.Add 1 "SKU3" "L1" 5 "PO-3"]).log ∧
    (ExecuteBatch ⟨false, true⟩ 9 (run ⟨false, true⟩ [.Add 1 "SKU3" "L1" 5 "PO-3"])
      [.Add "SKU2" "L1" 10 "r1", .Remove "SKU3" "L1" 999 "r2"]).2.Failure
      = some (1, .InsufficientStock) :=
  have h := ExecuteBatch_failure_is_atomic ⟨false, true⟩ 9
    (run ⟨false, true⟩ [.Add 1 "SKU3" "L1" 5 "PO-3"])
    (commit ⟨false, true⟩ 9 (batchView (run ⟨false, true⟩ [.Add 1 "SKU3" "L1" 5 "PO-3"]))
      ("SKU2", "L1") .Add 10 ⟨10, 0⟩ 10 "r1" none)
    [.Add "SKU2" "L1" 10 "r1", .Remove "SKU3" "L1" 999 "r2"] 1
    (.Remove "SKU3" "L1" 999 "r2") .InsufficientStock rfl rfl rfl
  ⟨h.2.1, h.2.2.2⟩

end Inventory

namespace Auth

/-! ## Roles and permissions -/

theorem rangePerms_iff_mem (perms : List Permission) (perm : Permission) :
    rangePerms perms perm = true ↔ perm ∈ perms := by
  induction perms with
  | nil => simp [rangePerms]
  | cons p rest ih =>
    by_cases h : p = perm
    · simp [rangePerms, h]
    · have h' : ¬ perm = p := fun e => h e.symm
      simp [rangePerms, h, h', ih]

theorem RolePermissions_none_of_undefined (role : Role) (h : role ∉ AllRoles) :
    RolePermissions role = none := by
  simp only [AllRoles, List.mem_cons, List.mem_singleton, not_or, List.not_mem_nil,
    or_false] at h
  obtain ⟨h1, h2, h3, h4, h5⟩ := h
  simp [RolePermissions, h1, h2, h3, h4, h5]

/-- C6. For every role `r` and permission `p`, `User{Role: r}.HasPermission(p)` is true exactly
when `p` occurs in `RolePermissions[r]` (the empty list when `r` is not a key); for a role string
that is none of the five defined roles it is false for every permission. -/
theorem HasPermission_iff_in_RolePermissions (r : Role) (p : Permission) :
    (({ Role := r } : User).HasPermission p = true ↔ p ∈ (RolePermissions r).getD []) ∧
    (r ∉ AllRoles → ∀ q : Permission, ({ Role := r } : User).HasPermission q = false) := by
  constructor
  · unfold User.HasPermission
    cases h : RolePermissions r with
    | none => simp
    | some perms => simp [rangePerms_iff_mem]
  · intro h q
    simp [User.HasPermission, RolePermissions_none_of_undefined r h]

/-- Witness of C6: the undefined role GUEST has no permission to read inventory. -/
theorem HasPermission_iff_in_RolePermissions_witness :
    ({ Role := "GUEST" } : User).HasPermission PermissionInventoryRead = false :=
  (HasPermission_iff_in_RolePermissions "GUEST" PermissionInventoryRead).2 (by decide)
    PermissionInventoryRead

/-- C10. The SYSTEM_ADMIN role has every one of the nine permission constants, `audit:read`
and `user:manage` among them, and no role other than SYSTEM_ADMIN has `user:manage`. -/
theorem SystemAdmin_full_access :
    (∀ p : Permission, p ∈ AllPermissions →
      ({ Role := RoleSystemAdmin } : User).HasPermission p = true) ∧
    (∀ r : Role, r ≠ RoleSystemAdmin →
      ({ Role := r } : User).HasPermission PermissionUserManage = false) := by
  constructor
  · intro p hp
    have : RolePermissions RoleSystemAdmin = some AllPermissions := by decide
    simp only [User.HasPermission, this]
    exact (rangePerms_iff_mem _ _).2 hp
  · intro r hr
    unfold User.HasPermission RolePermissions
    simp only [hr, if_false]
    split_ifs <;> rfl

/-- Witness of C10: SYSTEM_ADMIN has `audit:read`; INVENTORY_MANAGER lacks `user:manage`. -/
theorem SystemAdmin_full_access_witness :
    ({ Role := RoleSystemAdmin } : User).HasPermission PermissionAuditRead = true ∧
    ({ Role := RoleInventoryManager } : User).HasPermission PermissionUserManage = false :=
  ⟨SystemAdmin_full_access.1 PermissionAuditRead (by decide),
   SystemAdmin_full_access.2 RoleInventoryManager (by decide)⟩

/-- C5. The handler built by `RequirePermission(p)` calls `next` exactly when the request
context carries claims whose role has permission `p`; it answers 401 when the context carries
no claims and 403 when the role lacks `p` (in both cases `next` is not called), and when it
calls `next` it forwards the request unchanged. -/
theorem RequirePermission_spec (m : Middleware) (p : Permission) (r : Request) :
    ((m.RequirePermission p r).isNext = true ↔
      ∃ claims, GetClaimsFromContext r.Ctx = some claims ∧
        ({ Role := claims.Role } : User).HasPermission p = true) ∧
    (GetClaimsFromContext r.Ctx = none →
      ∃ message, m.RequirePermission p r = .Respond 401 message) ∧
    (∀ claims, GetClaimsFromContext r.Ctx = some claims →
      ({ Role := claims.Role } : User).HasPermission p = false →
      ∃ message, m.RequirePermission p r = .Respond 403 message) ∧
    (∀ r', m.RequirePermission p r = .Next r' → r' = r) := by
  unfold Middleware.RequirePermission
  cases h : GetClaimsFromContext r.Ctx with
  | none => simp [Decision.isNext, StatusUnauthorized]
  | some claims =>
    cases hp : ({ Role := claims.Role } : User).HasPermission p <;>
      simp [Decision.isNext, hp, StatusForbidden]

/-- Witness of C5: a request whose context carries viewer claims is answered 403 when
`inventory:write` is required. -/
theorem RequirePermission_spec_witness :
    ∃ message, sampleMiddleware.RequirePermission PermissionInventoryWrite
      { Ctx := [(ClaimsContextKey, .ClaimsPtr (some viewerClaims))] } = .Respond 403 message :=
  (RequirePermission_spec sampleMiddleware PermissionInventoryWrite
    { Ctx := [(ClaimsContextKey, .ClaimsPtr (some viewerClaims))] }).2.2.1 viewerClaims
    (by decide) (by decide)

/-! ## The Authenticate middleware -/

theorem splitChars_ne_nil (sep : Char) (l : List Char) : splitChars sep l ≠ [] := by
  cases l with
  | nil => simp [splitChars]
  | cons c cs =>
    unfold splitChars
    split
    · simp
    · split <;> simp

theorem splitChars_of_not_mem (sep : Char) (l : List Char) (h : sep ∉ l) :
    splitChars sep l = [l] := by
  induction l with
  | nil => rfl
  | cons c cs ih =>
    simp only [List.mem_cons, not_or] at h
    have hc : ¬ c = sep := fun e => h.1 e.symm
    simp [splitChars, hc, ih h.2]

theorem splitChars_length_of_mem (sep : Char) (l : List Char) (h : sep ∈ l) :
    2 ≤ (splitChars sep l).length := by
  induction l with
  | nil => cases h
  | cons c cs ih =>
    by_cases hc : c = sep
    · have := splitChars_ne_nil sep cs
      simp only [splitChars, hc, if_true, List.length_cons]
      have : 0 < (splitChars sep cs).length := List.length_pos.2 this
      omega
    · have hmem : sep ∈ cs := by
        rcases List.mem_cons.1 h with h1 | h1
        · exact absurd h1.symm hc
        · exact h1
      have := ih hmem
      simp only [splitChars, hc, if_false]
      cases hs : splitChars sep cs with
      | nil => simp [hs] at this
      | cons p ps => simpa [hs] using this

theorem splitChars_append_sep (sep : Char) (pre rest : List Char) (h : sep ∉ pre) :
    splitChars sep (pre ++ sep :: rest) = pre :: splitChars sep rest := by
  induction pre with
  | nil => simp [splitChars]
  | cons c cs ih =>
    simp only [List.mem_cons, not_or] at h
    have hc : ¬ c = sep := fun e => h.1 e.symm
    simp [splitChars, hc, ih h.2]

theorem Split_Bearer_append (v : String) :
    Split ("Bearer " ++ v) (Char.ofNat 32)
      = "Bearer" :: (splitChars (Char.ofNat 32) v.data).map String.mk := by
  have hd : ("Bearer " ++ v).data = "Bearer".data ++ Char.ofNat 32 :: v.data := by
    rw [String.data_append]
    rfl
  unfold Split
  rw [hd, splitChars_append_sep _ _ _ (by decide)]
  rfl

theorem headerToken_Bearer_append (v : String) :
    headerToken ("Bearer " ++ v) = if Char.ofNat 32 ∈ v.data then none else some v := by
  unfold headerToken
  rw [Split_Bearer_append]
  by_cases h : Char.ofNat 32 ∈ v.data
  · have hl := splitChars_length_of_mem _ _ h
    simp only [h, if_true]
    cases hs : splitChars (Char.ofNat 32) v.data with
    | nil => simp [hs] at hl
    | cons a rest =>
      cases rest with
      | nil => simp [hs] at hl
      | cons b rest2 => simp
  · simp [h, splitChars_of_not_mem _ _ h]

theorem checkBearer_eq (ext : External) (m : Middleware) (r : Request) (header : String) :
    m.checkBearer ext r header =
      match headerToken header with
      | none => .Respond StatusUnauthorized "Invalid authorization header"
      | some token =>
        match m.jwtService.ValidateToken ext token with
        | .error _ => .Respond StatusUnauthorized "Invalid token"
        | .ok claims =>
          .Next (r.WithContext (WithValue r.Ctx ClaimsContextKey (.ClaimsPtr (some claims)))) := by
  unfold Middleware.checkBearer headerToken
  cases Split header (Char.ofNat 32) with
  | nil => rfl
  | cons first rest =>
    cases rest with
    | nil => rfl
    | cons token rest2 =>
      cases rest2 with
      | nil => by_cases hf : first = "Bearer" <;> simp [hf]
      | cons x xs => rfl

theorem GetClaimsFromContext_WithValue (ctx : Context) (claims : Claims) :
    GetClaimsFromContext (WithValue ctx ClaimsContextKey (.ClaimsPtr (some claims)))
      = some claims := by
  simp [GetClaimsFromContext, WithValue, Context.Value]

theorem Authenticate_cases (ext : External) (m : Middleware) (r : Request)
    (hv : ∀ t c, m.jwtService.ValidateToken ext t = .ok c → Char.ofNat 32 ∉ t.data) :
    (∃ token claims, bearerToken r = some token ∧
        m.jwtService.ValidateToken ext token = .ok claims ∧
        m.Authenticate ext r =
          .Next (r.WithContext (WithValue r.Ctx ClaimsContextKey (.ClaimsPtr (some claims))))) ∨
    ((¬ ∃ token claims, bearerToken r = some token ∧
        m.jwtService.ValidateToken ext token = .ok claims) ∧
      ∃ message, m.Authenticate ext r = .Respond 401 message) := by
  unfold Middleware.Authenticate bearerToken
  simp only
  by_cases hA : r.Authorization = ""
  · simp only [hA, if_true]
    cases hc : r.Cookie "access_token" with
    | none => right; simp [StatusUnauthorized]
    | some cookie =>
      simp only [checkBearer_eq, headerToken_Bearer_append]
      by_cases hsp : Char.ofNat 32 ∈ cookie.Value.data
      · right
        simp only [hsp, if_true, StatusUnauthorized]
        refine ⟨?_, _, rfl⟩
        rintro ⟨token, claims, htok, hval⟩
        injection htok with htok
        subst htok
        exact hv _ _ hval hsp
      · simp only [hsp, if_false]
        cases hval : m.jwtService.ValidateToken ext cookie.Value with
        | error err =>
          right
          refine ⟨?_, _, rfl⟩
          rintro ⟨token, claims, htok, hval'⟩
          injection htok with htok
          subst htok
          rw [hval] at hval'
          cases hval'
        | ok claims => left; exact ⟨_, claims, rfl, hval, rfl⟩
  · simp only [hA, if_false, checkBearer_eq]
    cases htok : headerToken r.Authorization with
    | none => right; simp [StatusUnauthorized]
    | some token =>
      simp only
      cases hval : m.jwtService.ValidateToken ext token with
      | error err =>
        right
        refine ⟨?_, _, rfl⟩
        rintro ⟨token', claims, htok', hval'⟩
        injection htok' with htok'
        subst htok'
        rw [hval] at hval'
        cases hval'
      | ok claims => left; exact ⟨_, claims, rfl, hval, rfl⟩

/-- C4. `Authenticate` calls `next` exactly when a token string is extracted (the second of
exactly two space-separated parts of the Authorization header whose first part is `Bearer`, or,
when the header is empty, the value of the `access_token` cookie) and `ValidateToken` accepts
it; in every other case it answers 401 without calling `next`; and when `next` is called,
`GetClaimsFromContext` on the forwarded request returns the claims `ValidateToken` returned.
The token parser is third-party code; `hv` records that it accepts no string that contains a
space (a JWT is three base64url segments joined by dots). -/
theorem Authenticate_spec (ext : External) (m : Middleware) (r : Request)
    (hv : ∀ t c, m.jwtService.ValidateToken ext t = .ok c → Char.ofNat 32 ∉ t.data) :
    ((m.Authenticate ext r).isNext = true ↔
      ∃ token claims, bearerToken r = some token ∧
        m.jwtService.ValidateToken ext token = .ok claims) ∧
    ((m.Authenticate ext r).isNext = false →
      ∃ message, m.Authenticate ext r = .Respond 401 message) ∧
    (∀ r', m.Authenticate ext r = .Next r' →
      ∃ token claims, bearerToken r = some token ∧
        m.jwtService.ValidateToken ext token = .ok claims ∧
        GetClaimsFromContext r'.Ctx = some claims) := by
  rcases Authenticate_cases ext m r hv with ⟨token, claims, htok, hval, hnext⟩ | ⟨hno, message, hresp⟩
  · refine ⟨?_, ?_, ?_⟩
    · rw [hnext]
      simp only [Decision.isNext, true_iff]
      exact ⟨token, claims, htok, hval⟩
    · rw [hnext]
      intro h
      cases h
    · intro r' hr'
      rw [hnext] at hr'
      injection hr' with hr'
      subst hr'
      exact ⟨token, claims, htok, hval, GetClaimsFromContext_WithValue _ _⟩
  · refine ⟨?_, ?_, ?_⟩
    · rw [hresp]
      simp only [Decision.isNext]
      constructor
      · intro h
        cases h
      · intro h
        exact absurd h hno
    · intro _
      exact ⟨message, hresp⟩
    · intro r' hr'
      rw [hresp] at hr'
      cases hr'

/-- Whatever the token parser accepts, a request without Authorization header whose
`access_token` cookie value contains a space is answered 401 at the format check: the value
is split again after `Bearer ` is put in front of it. -/
theorem Authenticate_cookie_with_space (ext : External) (m : Middleware) (r : Request)
    (cookie : Cookie) (hA : r.Authorization = "") (hc : r.Cookie "access_token" = some cookie)
    (hsp : Char.ofNat 32 ∈ cookie.Value.data) :
    m.Authenticate ext r = .Respond 401 "Invalid authorization header" := by
  simp [Middleware.Authenticate, hA, hc, checkBearer_eq, headerToken_Bearer_append, hsp,
    StatusUnauthorized]

/-- The sample token parser accepts no string that contains a space. -/
theorem sampleExternal_rejects_spaces (t : String) (c : Claims)
    (h : sampleMiddleware.jwtService.ValidateToken sampleExternal t = .ok c) :
    Char.ofNat 32 ∉ t.data := by
  by_cases ht : t = "viewer-token"
  · subst ht
    decide
  · simp [JWTService.ValidateToken, sampleExternal, ht] at h

/-- Witness of C4: a request without Authorization header whose `access_token` cookie holds
the accepted token is forwarded to `next`. -/
theorem Authenticate_spec_witness :
    (sampleMiddleware.Authenticate sampleExternal cookieRequest).isNext = true ∧
    bearerToken cookieRequest = some "viewer-token" :=
  ⟨((Authenticate_spec sampleExternal sampleMiddleware cookieRequest
      sampleExternal_rejects_spaces).1).2 ⟨"viewer-token", viewerClaims, by decide, rfl⟩,
   by decide⟩

/-! ## Login -/

/-- The expiry reported in the token pair is the Unix time of the issue time plus
`TokenExpiry`, and the access token is the signature of claims filled from the user. -/
theorem GenerateTokens_ok (ext : External) (s : JWTService) (now : Int) (user : User)
    (tokens : TokenPair) (h : s.GenerateTokens ext now user = .ok tokens) :
    tokens.ExpiresAt = Unix (now + s.config.TokenExpiry) ∧
    ∃ claims : Claims, ext.SignedString claims s.config.SecretKey = .ok tokens.AccessToken ∧
      claims.UserID = user.ID ∧ claims.Email = user.Email ∧ claims.Name = user.Name ∧
      claims.Role = user.Role ∧ claims.LocationID = user.LocationID.getD "" := by
  unfold JWTService.GenerateTokens at h
  simp only at h
  split at h
  · cases h
  · rename_i access haccess
    split at h
    · cases h
    · injection h with h
      subst h
      refine ⟨rfl, _, haccess, rfl, rfl, rfl, rfl, ?_⟩
      cases user.LocationID <;> rfl

theorem Login_outcomes (ext : External) (h : Handler) (now : Int) (r : Request) :
    ((h.Login ext now r).Body.Success = true →
      ∃ email password user tokens,
        ext.DecodeLogin r.Body = some (email, password) ∧ email ≠ "" ∧ password ≠ "" ∧
        h.userRepo.GetByEmail email = .ok user ∧ user.CheckPassword ext password = true ∧
        user.IsActive = true ∧ h.jwtService.GenerateTokens ext now user = .ok tokens) ∧
    ((h.Login ext now r).Body.Success = false →
      (h.Login ext now r).Cookies = [] ∧ (h.Login ext now r).Body.Token = none) := by
  unfold Handler.Login
  cases hd : ext.DecodeLogin r.Body with
  | none => simp [sendError]
  | some ep =>
    obtain ⟨email, password⟩ := ep
    by_cases he : email = ""
    · simp [he, sendError]
    · by_cases hp : password = ""
      · simp [hp, sendError]
      · cases hu : h.userRepo.GetByEmail email with
        | error err => simp [he, hp, hu, sendError]
        | ok user =>
          cases hc : user.CheckPassword ext password with
          | false => simp [he, hp, hu, hc, sendError]
          | true =>
            cases ha : user.IsActive with
            | false => simp [he, hp, hu, hc, ha, sendError]
            | true =>
              cases hg : h.jwtService.GenerateTokens ext now user with
              | error err => simp [he, hp, hu, hc, ha, hg, sendError]
              | ok tokens =>
                simp only [he, hp, hu, hc, ha, hg, or_self, if_false, Bool.not_true, Bool.false_eq_true]
                exact ⟨fun _ => ⟨email, password, user, tokens, rfl, he, hp, hu, hc, ha, hg⟩,
                  fun hf => by cases hf⟩

theorem Login_accepts (ext : External) (h : Handler) (now : Int) (r : Request)
    (email password : String) (user : User) (tokens : TokenPair)
    (hd : ext.DecodeLogin r.Body = some (email, password)) (he : email ≠ "")
    (hp : password ≠ "") (hu : h.userRepo.GetByEmail email = .ok user)
    (hc : user.CheckPassword ext password = true) (ha : user.IsActive = true)
    (hg : h.jwtService.GenerateTokens ext now user = .ok tokens) :
    (h.Login ext now r).Status = 200 ∧ (h.Login ext now r).Body.Success = true ∧
    (h.Login ext now r).Body.Token = some tokens ∧
    (h.Login ext now r).Cookies.map (fun c => (c.Name, c.Value))
      = [("refresh_token", tokens.RefreshToken), ("access_token", tokens.AccessToken)] := by
  simp [Handler.Login, hd, he, hp, hu, hc, ha, hg, StatusOK]

/-- When token generation fails, `Login` answers 500 (`handler.go`, lines 89-94). -/
theorem Login_generation_error (ext : External) (h : Handler) (now : Int) (r : Request)
    (email password : String) (user : User) (err : String)
    (hd : ext.DecodeLogin r.Body = some (email, password)) (he : email ≠ "")
    (hp : password ≠ "") (hu : h.userRepo.GetByEmail email = .ok user)
    (hc : user.CheckPassword ext password = true) (ha : user.IsActive = true)
    (hg : h.jwtService.GenerateTokens ext now user = .error err) :
    (h.Login ext now r).Status = 500 := by
  simp [Handler.Login, hd, he, hp, hu, hc, ha, hg, sendError, StatusInternalServerError]

/-- With a signer that signs every claims value under every key, `GenerateTokens` returns a
token pair. -/
theorem GenerateTokens_total (ext : External) (s : JWTService) (now : Int) (user : User)
    (hsign : ∀ (claims : Claims) (key : String), ∃ token, ext.SignedString claims key = .ok token)
    (hsignR : ∀ (claims : RegisteredClaims) (key : String),
      ∃ token, ext.SignedRegistered claims key = .ok token) :
    ∃ tokens, s.GenerateTokens ext now user = .ok tokens := by
  unfold JWTService.GenerateTokens
  simp only
  obtain ⟨access, haccess⟩ := hsign
    { UserID := user.ID, Email := user.Email, Name := user.Name, Role := user.Role
      LocationID := match user.LocationID with
        | some l => l
        | none => ""
      Registered :=
        { Issuer := s.config.Issuer, Subject := user.ID
          ExpiresAt := some (now + s.config.TokenExpiry), IssuedAt := some now } }
    s.config.SecretKey
  obtain ⟨refresh, hrefresh⟩ := hsignR
    { Issuer := s.config.Issuer, Subject := user.ID
      ExpiresAt := some (now + s.config.RefreshExpiry), IssuedAt := some now }
    s.config.SecretKey
  rw [haccess]
  simp only
  rw [hrefresh]
  exact ⟨_, rfl⟩

/-- C9. `Login` returns a token pair (`success` true, status 200, with the `refresh_token` and
`access_token` cookies set) exactly when the body decodes, email and password are both
non-empty, `GetByEmail(email)` finds a user, `CheckPassword(password)` is true and the user is
active; otherwise it sets no cookie and answers, in this order of precedence, 400 (undecodable
body or empty field), 401 (unknown email or wrong password), 403 (inactive account).  The
signer is third-party code; `hsign` and `hsignR` record that HS256 signing with a byte-string
key returns a token for every claims value. -/
theorem Login_spec (ext : External) (h : Handler) (now : Int) (r : Request)
    (hsign : ∀ (claims : Claims) (key : String), ∃ token, ext.SignedString claims key = .ok token)
    (hsignR : ∀ (claims : RegisteredClaims) (key : String),
      ∃ token, ext.SignedRegistered claims key = .ok token) :
    ((h.Login ext now r).Body.Success = true ↔
      ∃ email password user,
        ext.DecodeLogin r.Body = some (email, password) ∧ email ≠ "" ∧ password ≠ "" ∧
        h.userRepo.GetByEmail email = .ok user ∧ user.CheckPassword ext password = true ∧
        user.IsActive = true) ∧
    (∀ email password user,
        ext.DecodeLogin r.Body = some (email, password) → email ≠ "" → password ≠ "" →
        h.userRepo.GetByEmail email = .ok user → user.CheckPassword ext password = true →
        user.IsActive = true →
        ∃ tokens, h.jwtService.GenerateTokens ext now user = .ok tokens ∧
          (h.Login ext now r).Status = 200 ∧ (h.Login ext now r).Body.Success = true ∧
          (h.Login ext now r).Body.Token = some tokens ∧
          (h.Login ext now r).Cookies.map (fun c => (c.Name, c.Value))
            = [("refresh_token", tokens.RefreshToken), ("access_token", tokens.AccessToken)]) ∧
    ((h.Login ext now r).Body.Success = false →
      (h.Login ext now r).Cookies = [] ∧ (h.Login ext now r).Body.Token = none) ∧
    ((ext.DecodeLogin r.Body = none ∨
        ∃ email password, ext.DecodeLogin r.Body = some (email, password) ∧
          (email = "" ∨ password = "")) →
      (h.Login ext now r).Status = 400) ∧
    (∀ email password, ext.DecodeLogin r.Body = some (email, password) →
        email ≠ "" → password ≠ "" →
        ((∃ err, h.userRepo.GetByEmail email = .error err) ∨
          ∃ user, h.userRepo.GetByEmail email = .ok user ∧
            user.CheckPassword ext password = false) →
      (h.Login ext now r).Status = 401) ∧
    (∀ email password user, ext.DecodeLogin r.Body = some (email, password) →
        email ≠ "" → password ≠ "" → h.userRepo.GetByEmail email = .ok user →
        user.CheckPassword ext password = true → user.IsActive = false →
      (h.Login ext now r).Status = 403) := by
  have haccept : ∀ email password user,
      ext.DecodeLogin r.Body = some (email, password) → email ≠ "" → password ≠ "" →
      h.userRepo.GetByEmail email = .ok user → user.CheckPassword ext password = true →
      user.IsActive = true →
      ∃ tokens, h.jwtService.GenerateTokens ext now user = .ok tokens ∧
        (h.Login ext now r).Status = 200 ∧ (h.Login ext now r).Body.Success = true ∧
        (h.Login ext now r).Body.Token = some tokens ∧
        (h.Login ext now r).Cookies.map (fun c => (c.Name, c.Value))
          = [("refresh_token", tokens.RefreshToken), ("access_token", tokens.AccessToken)] := by
    intro email password user hd he hp hu hc ha
    obtain ⟨tokens, hg⟩ := GenerateTokens_total ext h.jwtService now user hsign hsignR
    exact ⟨tokens, hg, Login_accepts ext h now r email password user tokens hd he hp hu hc ha hg⟩
  refine ⟨⟨?_, ?_⟩, haccept, (Login_outcomes ext h now r).2, ?_, ?_, ?_⟩
  · intro hs
    obtain ⟨email, password, user, tokens, hd, he, hp, hu, hc, ha, _⟩ :=
      (Login_outcomes ext h now r).1 hs
    exact ⟨email, password, user, hd, he, hp, hu, hc, ha⟩
  · rintro ⟨email, password, user, hd, he, hp, hu, hc, ha⟩
    obtain ⟨tokens, _, _, hsuccess, _⟩ := haccept email password user hd he hp hu hc ha
    exact hsuccess
  · rintro (hd | ⟨email, password, hd, hempty⟩)
    · simp [Handler.Login, hd, sendError, StatusBadRequest]
    · simp [Handler.Login, hd, hempty, sendError, StatusBadRequest]
  · rintro email password hd he hp (⟨err, hu⟩ | ⟨user, hu, hc⟩)
    · simp [Handler.Login, hd, he, hp, hu, sendError, StatusUnauthorized]
    · simp [Handler.Login, hd, he, hp, hu, hc, sendError, StatusUnauthorized]
  · intro email password user hd he hp hu hc ha
    simp [Handler.Login, hd, he, hp, hu, hc, ha, sendError, StatusForbidden]

/-- Witness of C9: the sample viewer logs in with the sample signer, which signs everything,
and gets `success` true. -/
theorem Login_spec_witness :
    (sampleHandler.Login sampleExternal 0
      { Method := "POST", Body := "viewer@zaigo.local" }).Body.Success = true :=
  ((Login_spec sampleExternal sampleHandler 0
      { Method := "POST", Body := "viewer@zaigo.local" }
      (fun _ _ => ⟨_, rfl⟩) (fun _ _ => ⟨_, rfl⟩)).1).2
    ⟨"viewer@zaigo.local", "pw", _, rfl, by decide, by decide, rfl, rfl, rfl⟩

/-! ## The token round trip -/

/-- C8. The access token of `GenerateTokens(u)` passes `ValidateToken` of the same service
before it expires, and the claims returned carry `UserID = u.ID`, `Email = u.Email`,
`Name = u.Name`, `Role = u.Role` and `LocationID` equal to `*u.LocationID` (empty when it is
nil); and `TokenPair.ExpiresAt` is the Unix time of the issue time plus `TokenExpiry`.  This
holds for every `TokenExpiry`.  Signing and parsing are third-party code: `hlib` is their
contract, that at clock reading `clock` the parser, given a key function that returns the
signing key for an HMAC method, returns the signed claims as a valid token as long as the
expiry of the claims, in whole seconds, is after `clock`. -/
theorem GenerateTokens_ValidateToken_roundtrip (ext : External) (s : JWTService)
    (now clock : Int) (user : User) (tokens : TokenPair)
    (hgen : s.GenerateTokens ext now user = .ok tokens)
    (hlib : ∀ (claims : Claims) (key token : String)
        (keyFunc : SigningMethod → Except String String),
        ext.SignedString claims key = .ok token → keyFunc .HMAC = .ok key →
        (∀ e, claims.Registered.ExpiresAt = some e → clock < Unix e * Second) →
        ext.ParseWithClaims token keyFunc = .ok { Claims := some claims, Valid := true })
    (hclock : clock < tokens.ExpiresAt * Second) :
    (∃ claims, s.ValidateToken ext tokens.AccessToken = .ok claims ∧
      claims.UserID = user.ID ∧ claims.Email = user.Email ∧ claims.Name = user.Name ∧
      claims.Role = user.Role ∧ claims.LocationID = user.LocationID.getD "") ∧
    tokens.ExpiresAt = Unix (now + s.config.TokenExpiry) := by
  have hexp : tokens.ExpiresAt = Unix (now + s.config.TokenExpiry) :=
    (GenerateTokens_ok ext s now user tokens hgen).1
  refine ⟨?_, hexp⟩
  unfold JWTService.GenerateTokens at hgen
  simp only at hgen
  split at hgen
  · cases hgen
  · rename_i access haccess
    split at hgen
    · cases hgen
    · injection hgen with hgen
      subst hgen
      have hparse := hlib _ _ _
        (fun method =>
          match method with
          | .HMAC => .ok s.config.SecretKey
          | .Other => .error "invalid signing method")
        haccess rfl
        (by
          intro e he
          injection he with he
          subst he
          exact hclock)
      have hvalid := congrArg (fun parsed =>
          (match parsed with
          | .error err => .error err
          | .ok token =>
            match token.Claims with
            | none => .error "invalid token"
            | some claims => if !token.Valid then .error "invalid token" else .ok claims :
            Except String Claims)) hparse
      refine ⟨_, hvalid, ?_, ?_, ?_, ?_, ?_⟩
      · rfl
      · rfl
      · rfl
      · rfl
      · cases user.LocationID <;> rfl

/-- The contract `hlib` holds of the sample instance that binds a token to its claims and
key. -/
theorem bindingExternal_contract (clock : Int) (claims : Claims) (key token : String)
    (keyFunc : SigningMethod → Except String String)
    (hs : bindingExternal.SignedString claims key = .ok token) (hk : keyFunc .HMAC = .ok key)
    (_hc : ∀ e, claims.Registered.ExpiresAt = some e → clock < Unix e * Second) :
    bindingExternal.ParseWithClaims token keyFunc = .ok { Claims := some claims, Valid := true } := by
  by_cases hck : claims = aliceClaims ∧ key = DefaultConfig.SecretKey
  · obtain ⟨h1, h2⟩ := hck
    subst h1
    subst h2
    simp only [bindingExternal, and_self, if_true] at hs
    injection hs with hs
    subst hs
    simp [bindingExternal, hk]
  · simp [bindingExternal, hck] at hs

/-- Witness of C8: alice's access token, issued at time 0 under the default configuration,
passes `ValidateToken` one nanosecond later and returns her ID. -/
theorem GenerateTokens_ValidateToken_roundtrip_witness :
    ∃ claims, (NewJWTService none).ValidateToken bindingExternal "alice-token" = .ok claims ∧
      claims.UserID = "u-1" :=
  have h := GenerateTokens_ValidateToken_roundtrip bindingExternal (NewJWTService none) 0 1
    alice { AccessToken := "alice-token", RefreshToken := "refresh-token", ExpiresAt := 900 }
    rfl (bindingExternal_contract 1) (by decide)
  match h.1 with
  | ⟨claims, hv, hid, _⟩ => ⟨claims, hv, hid⟩

end Auth

namespace Api

open Auth

/-! ## Routing -/

/-- C7, at the failing inputs: a POST to `/api/v1/inventory/add` carrying a valid access token
whose role is VIEWER (a role without `inventory:write`) is dispatched to the AddStock handler,
and likewise for each of the seven mutating inventory routes, because `protectedApi` uses
`Authenticate` only and no route uses `RequirePermission`. -/
theorem viewer_reaches_AddStock :
    sampleMiddleware.jwtService.ValidateToken sampleExternal "viewer-token" = .ok viewerClaims ∧
    viewerClaims.Role = RoleViewer ∧
    ({ Role := RoleViewer } : User).HasPermission PermissionInventoryWrite = false ∧
    ServeHTTP sampleExternal sampleMiddleware (viewerPost "/api/v1/inventory/add")
      = .Handled .AddStock
          { Method := "POST", Path := "/api/v1/inventory/add"
            Authorization := "Bearer viewer-token"
            Ctx := [(ClaimsContextKey, .ClaimsPtr (some viewerClaims))] } ∧
    mutatingPaths.map Prod.snd = mutatingInventoryHandlers ∧
    mutatingPaths.all (fun c =>
      decide (ServeHTTP sampleExternal sampleMiddleware (viewerPost c.1)
        = .Handled c.2 ((viewerPost c.1).WithContext
            [(ClaimsContextKey, .ClaimsPtr (some viewerClaims))]))) = true := by
  refine ⟨rfl, rfl, by decide, by decide, by decide, by decide⟩

end Api

namespace Auth

/-! ## The in-memory user repository -/

/-- C15, at the failing input: from the new repository, `CreateUser` for alice (ID `u-1`) and
for bob (ID `u-2`), then `UpdateUser` on `u-2` with the email of alice, which answers 200.
Afterwards the users `u-1` and `u-2` are both stored with the email of alice; `GetByEmail`
under that email returns bob, so alice is no longer found under her email; and `GetByEmail`
under the old email of bob still returns bob, whose Email is now another string.  `Create`
rejects the same email with 409, and `Delete` removes the email key, but `Update` neither
checks the new email nor removes the old key. -/
theorem UpdateUser_breaks_email_uniqueness :
    (NewInMemoryUserRepository "u-0" 0 sampleHasher).isSome = true ∧
    (CreateUser sampleDecodeCreate "u-1" 1 sampleHasher repoNew { Body := "alice" }).2.1 = 201 ∧
    (CreateUser sampleDecodeCreate "u-2" 2 sampleHasher
      (CreateUser sampleDecodeCreate "u-1" 1 sampleHasher repoNew { Body := "alice" }).1
      { Body := "bob" }).2.1 = 201 ∧
    (UpdateUser sampleDecodeUpdate repoTwoUsers 3 renameRequest).2.1 = 200 ∧
    (CreateUser sampleDecodeCreate "u-3" 3 sampleHasher repoTwoUsers { Body := "alice" }).2.1
      = 409 ∧
    repoTwoUsers.userByEmail "alice@zaigo.local" = some alice ∧
    repoRenamed.userByID "u-1" = some alice ∧
    repoRenamed.userByID "u-2" = some bobRenamed ∧
    alice.ID ≠ bobRenamed.ID ∧ alice.Email = bobRenamed.Email ∧
    repoRenamed.userByEmail "alice@zaigo.local" = some bobRenamed ∧
    repoRenamed.userByEmail "bob@zaigo.local" = some bobRenamed ∧
    ¬ repoRenamed.EmailUnique ∧ ¬ repoRenamed.FoundByEmail := by
  have hAlice : repoRenamed.Stored alice := ⟨"u-1", 1, by decide, by decide⟩
  have hBob : repoRenamed.Stored bobRenamed := ⟨"u-2", 2, by decide, by decide⟩
  refine ⟨rfl, by decide, by decide, by decide, by decide, by decide, by decide, by decide,
    by decide, by decide, by decide, by decide, ?_, ?_⟩
  · intro h
    exact h alice bobRenamed hAlice hBob (by decide) (by decide)
  · intro h
    have := (h bobRenamed hBob).2 "bob@zaigo.local" (by decide)
    revert this
    decide

end Auth

namespace Api

open Auth

/-! ## Shadowed routes -/

theorem matchSegments_covered (as : List String) :
    ∀ (bs ps : List String) (vars : List (String × String)),
      templateCovers as bs = true → matchSegments bs ps = some vars →
      (matchSegments as ps).isSome = true := by
  induction as with
  | nil =>
    intro bs ps vars hc hm
    cases bs with
    | nil =>
      cases ps with
      | nil => rfl
      | cons p ps => simp [matchSegments] at hm
    | cons b bs => simp [templateCovers] at hc
  | cons a as ih =>
    intro bs ps vars hc hm
    cases bs with
    | nil => simp [templateCovers] at hc
    | cons b bs =>
      cases ps with
      | nil => simp [matchSegments] at hm
      | cons p ps =>
        simp only [templateCovers, Bool.and_eq_true] at hc
        obtain ⟨hseg, hrest⟩ := hc
        -- the tail of the shadowed template matches, and the segment `p` is accepted by `b`
        have htail : ∃ v, matchSegments bs ps = some v ∧
            ((segmentVar b).isSome = true → p ≠ "") ∧ ((segmentVar b) = none → b = p) := by
          simp only [matchSegments] at hm
          cases hb : segmentVar b with
          | some name =>
            simp only [hb] at hm
            by_cases hp : p = ""
            · simp [hp] at hm
            · simp only [hp, if_false] at hm
              cases hbs : matchSegments bs ps with
              | none => simp [hbs] at hm
              | some v => exact ⟨v, rfl, fun _ => hp, fun h => by cases h⟩
          | none =>
            simp only [hb] at hm
            by_cases hbp : b = p
            · simp only [hbp, if_true] at hm
              exact ⟨vars, hm, fun h => by simp at h, fun _ => hbp⟩
            · simp [hbp] at hm
        obtain ⟨v, hv, hvar, hlit⟩ := htail
        have hih := ih bs ps v hrest hv
        obtain ⟨v', hv'⟩ := Option.isSome_iff_exists.1 hih
        simp only [matchSegments]
        unfold segmentCovers at hseg
        cases ha : segmentVar a with
        | some name =>
          simp only [ha, Bool.or_eq_true] at hseg
          have hp : p ≠ "" := by
            cases hb : segmentVar b with
            | some nb => exact hvar (by simp [hb])
            | none =>
              have hbp := hlit hb
              rcases hseg with hseg | hseg
              · simp [hb] at hseg
              · subst hbp
                simpa using hseg
          simp [hp, hv']
        | none =>
          simp only [ha, Bool.and_eq_true, Option.isNone_iff_eq_none, beq_iff_eq] at hseg
          have hbp := hlit hseg.1
          have hap : a = p := hseg.2.trans hbp
          simp [hap, hv']

theorem shadows_matches (a b : Route) (r : Request) (vars : List (String × String))
    (h : shadows a b = true) (hm : b.Method = r.Method)
    (ht : matchTemplate b.Template r.Path = some vars) :
    a.Method = r.Method ∧ (matchTemplate a.Template r.Path).isSome = true := by
  simp only [shadows, Bool.and_eq_true, beq_iff_eq] at h
  exact ⟨h.1.1.trans hm, matchSegments_covered _ _ _ vars h.2 ht⟩

theorem Match_mem_unshadowed (rest : List Route) :
    ∀ (pre : List Route) (r : Request) (b : Route) (vars : List (String × String)),
      (∀ a ∈ pre, ¬ (a.Method = r.Method ∧ (matchTemplate a.Template r.Path).isSome = true)) →
      Match rest r = some (b, vars) → b ∈ unshadowed pre rest := by
  induction rest with
  | nil =>
    intro pre r b vars _ hm
    simp [Match] at hm
  | cons c rest ih =>
    intro pre r b vars hpre hm
    simp only [Match] at hm
    by_cases hc : c.Method = r.Method ∧ (matchTemplate c.Template r.Path).isSome = true
    · obtain ⟨hmeth, hsome⟩ := hc
      obtain ⟨v, hv⟩ := Option.isSome_iff_exists.1 hsome
      simp only [hmeth, if_true, hv] at hm
      injection hm with hm
      injection hm with hcb _
      subst hcb
      have hnone : pre.any (fun a => shadows a c) = false := by
        rw [Bool.eq_false_iff]
        intro hany
        obtain ⟨a, ha, hs⟩ := List.any_eq_true.1 hany
        exact hpre a ha (shadows_matches a c r v hs hmeth hv)
      simp [unshadowed, hnone]
    · have hrest : Match rest r = some (b, vars) := by
        by_cases hmeth : c.Method = r.Method
        · simp only [hmeth, if_true] at hm
          cases hv : matchTemplate c.Template r.Path with
          | none => simpa [hv] using hm
          | some v => exact absurd ⟨hmeth, by simp [hv]⟩ hc
        · simpa [hmeth] using hm
      have hpre' : ∀ a ∈ pre ++ [c],
          ¬ (a.Method = r.Method ∧ (matchTemplate a.Template r.Path).isSome = true) := by
        intro a ha
        rcases List.mem_append.1 ha with ha | ha
        · exact hpre a ha
        · rw [List.mem_singleton.1 ha]
          exact hc
      have := ih (pre ++ [c]) r b vars hpre' hrest
      unfold unshadowed
      split
      · exact this
      · exact List.mem_cons_of_mem _ this

theorem dispatch_mem_unshadowed (r : Request) (h : HandlerID) (hd : dispatch r = some h) :
    h ∈ (unshadowed [] setupRouter).map (fun b => b.Handler) := by
  unfold dispatch at hd
  cases hm : Match setupRouter r with
  | none => simp [hm] at hd
  | some m =>
    obtain ⟨b, vars⟩ := m
    simp only [hm, Option.map_some', Option.some.injEq] at hd
    subst hd
    exact List.mem_map.2 ⟨b, Match_mem_unshadowed setupRouter [] r b vars (by simp) hm, rfl⟩

theorem unshadowed_handlers :
    shadowedHandlers.all (fun h =>
      !((unshadowed [] setupRouter).map (fun b => b.Handler)).contains h) = true := by
  decide

theorem ServeHTTP_handler (ext : External) (m : Middleware) (r : Request) (h : HandlerID)
    (hs : (ServeHTTP ext m r).handler = some h) : dispatch r = some h := by
  unfold ServeHTTP at hs
  unfold dispatch
  cases hm : Match setupRouter r with
  | none => simp [hm, Served.handler] at hs
  | some mt =>
    obtain ⟨route, vars⟩ := mt
    simp only [hm] at hs
    split at hs
    · simp [Served.handler] at hs
    · split at hs
      · split at hs
        · simp [Served.handler] at hs
        · simpa [Served.handler] using hs
      · simpa [Served.handler] using hs

/-- C14, at the failing routes: seven registered routes are shadowed by an earlier route with
the same method and a covering template (`/inventory/{itemId}/total`,
`/inventory/location/{locationId}` and `/inventory/{itemId}/history` by
`/inventory/{itemId}/{locationId}`; `/lots/expiring` and `/lots/expired` by `/lots/{lotId}`;
`/valuation/total/{locationId}` and `/valuation/average-cost/{itemId}` by
`/valuation/{itemId}/{locationId}`).  No request is dispatched to their handlers, whatever the
request and the authentication; each of the other 38 registered routes is reached by a
request. -/
theorem shadowed_routes_unreachable :
    (∀ r : Request, isShadowed (dispatch r) = false) ∧
    (∀ (ext : External) (m : Middleware) (r : Request),
      isShadowed (ServeHTTP ext m r).handler = false) ∧
    shadowedHandlers.all (fun h => (setupRouter.map (fun b => b.Handler)).contains h) = true ∧
    reachableSamples.all (fun s => dispatch s.1 == some s.2) = true ∧
    (setupRouter.map (fun b => b.Handler)).all (fun h =>
      shadowedHandlers.contains h || (reachableSamples.map (fun s => s.2)).contains h) = true := by
  have hd : ∀ r : Request, isShadowed (dispatch r) = false := by
    intro r
    cases hr : dispatch r with
    | none => rfl
    | some h =>
      have hmem := dispatch_mem_unshadowed r h hr
      have hall := unshadowed_handlers
      rw [List.all_eq_true] at hall
      simp only [isShadowed]
      rw [Bool.eq_false_iff]
      intro hc
      have hin : h ∈ shadowedHandlers := by simpa using hc
      have := hall h hin
      simp only [Bool.not_eq_true', List.contains_eq_any_beq, List.any_eq_false, beq_iff_eq] at this
      obtain ⟨b, hb, hbh⟩ := List.mem_map.1 hmem
      exact this b.Handler (List.mem_map.2 ⟨b, hb, rfl⟩) hbh.symm
  refine ⟨hd, ?_, by decide, by decide, by decide⟩
  intro ext m r
  cases hs : (ServeHTTP ext m r).handler with
  | none => rfl
  | some h =>
    have := hd r
    rw [ServeHTTP_handler ext m r h hs] at this
    exact this

/-- C11, at the failing input: the authenticated request `GET /api/v1/inventory/item-1/total`
of `TestGetTotalStock_Success` is dispatched to the GetStock handler, with `itemId` bound to
`item-1` and `locationId` bound to `total`, and not to the GetTotalStock handler: the route
`/inventory/{itemId}/{locationId}` is registered before `/inventory/{itemId}/total`. -/
theorem total_stock_request_reaches_GetStock :
    (sampleMiddleware.Authenticate sampleExternal totalStockRequest).isNext = true ∧
    ServeHTTP sampleExternal sampleMiddleware totalStockRequest
      = .Handled .GetStock
          { Method := "GET", Path := "/api/v1/inventory/item-1/total"
            Authorization := "Bearer viewer-token"
            Ctx := [(ClaimsContextKey, .ClaimsPtr (some viewerClaims))]
            Vars := [("itemId", "item-1"), ("locationId", "total")] } ∧
    (ServeHTTP sampleExternal sampleMiddleware totalStockRequest).handler
      ≠ some .GetTotalStock := by
  refine ⟨by decide, by decide, by decide⟩

end Api
